import Mathlib

/-!
# auth-ui v750 (`src/auth-ui/v750/server.js`)

A shallow embedding of the authentication handlers of the mock auth server:
the in-memory `users` map, the session token `generateToken`, and the
handlers for login, signup, verify, logout, `me` and stats.

Modelling conventions.

* A JavaScript string is a sequence of UTF-16 code units (`JSString`).
* A body field or header is either absent (`none`) or a string.
* Every reading of the clock (`Date.now()`, `new Date().toISOString()`) is an
  explicit argument of the handler that performs it, in evaluation order.
* `Buffer.from(s).toString('base64')` and
  `Buffer.from(s, 'base64').toString()` belong to the Node.js runtime; they
  are embedded as the executable functions `utf8Encode`, `base64Encode`,
  `base64Decode`, `utf8Decode` below.
-/

namespace AuthUI

/-! ## Strings -/

/-- One UTF-16 code unit. -/
abbrev CodeUnit := Fin 65536

/-- A JavaScript string value. -/
abbrev JSString := List CodeUnit

/-- The code unit with the given number (reduced modulo 2^16). -/
def unit (n : Nat) : CodeUnit := ⟨n % 65536, Nat.mod_lt _ (by decide)⟩

/-- The code units of the code point `cp`. -/
def codePointUnits (cp : Nat) : JSString :=
  if cp < 0x10000 then [unit cp]
  else [unit (0xD800 + (cp - 0x10000) / 1024), unit (0xDC00 + (cp - 0x10000) % 1024)]

/-- A string literal of the source, as code units. -/
def lit (s : String) : JSString := s.toList.flatMap (fun c => codePointUnits c.toNat)

def isHighSurrogate (u : Nat) : Bool := 0xD800 ≤ u && u ≤ 0xDBFF

def isLowSurrogate (u : Nat) : Bool := 0xDC00 ≤ u && u ≤ 0xDFFF

/-- Mirrors `String.prototype.isWellFormed`: no unpaired surrogate. -/
def isWellFormed : JSString → Bool
  | [] => true
  | u :: rest =>
    if isHighSurrogate u.val then
      match rest with
      | v :: rest2 => isLowSurrogate v.val && isWellFormed rest2
      | [] => false
    else if isLowSurrogate u.val then false
    else isWellFormed rest

/-- Mirrors `s.split(sep)` for a separator `sep` of one code unit, as in
`email.split('@')` and `decoded.split(':')`. The result is never empty. -/
def split (sep : CodeUnit) : JSString → List JSString
  | [] => [[]]
  | c :: cs =>
    if c = sep then [] :: split sep cs
    else
      match split sep cs with
      | [] => [[c]]
      | seg :: segs => (c :: seg) :: segs

/-- Mirrors the array index `xs[0]` on a list of strings; `undefined` is
`none`. -/
def first (xs : List JSString) : Option JSString := xs.head?

/-- Mirrors `s.replace(pat, rep)` for string `pat` and a replacement without
`$` patterns: the first occurrence of `pat` is replaced. -/
def replace (pat rep : JSString) : JSString → JSString
  | [] => if pat = [] then rep else []
  | c :: cs =>
    if pat.isPrefixOf (c :: cs) then rep ++ (c :: cs).drop pat.length
    else c :: replace pat rep cs

/-- Decimal digits of `n`, least significant first, with at most `fuel`
digits. -/
def digitsRev : Nat → Nat → JSString
  | 0, _ => []
  | fuel + 1, n =>
    if n < 10 then [unit (48 + n)]
    else unit (48 + n % 10) :: digitsRev fuel (n / 10)

/-- Mirrors `String(n)` for an integer-valued number `n` (as produced by
`Date.now()`), whose magnitude is below 10^21: plain decimal notation. -/
def numberToString (n : Int) : JSString :=
  if n < 0 then unit 45 :: (digitsRev (n.natAbs + 1) n.natAbs).reverse
  else (digitsRev (n.natAbs + 1) n.natAbs).reverse

/-! ## Node.js runtime: UTF-8 and base64 -/

/-- The three bytes of U+FFFD in UTF-8. -/
def replacementBytes : List Nat := [0xEF, 0xBF, 0xBD]

/-- Mirrors `Buffer.from(s)` (UTF-8): surrogate pairs become one four-byte
sequence, an unpaired surrogate is written as U+FFFD. -/
def utf8Encode : JSString → List Nat
  | [] => []
  | [u] =>
    if u.val < 0x80 then [u.val]
    else if u.val < 0x800 then [0xC0 + u.val / 64, 0x80 + u.val % 64]
    else if isHighSurrogate u.val || isLowSurrogate u.val then replacementBytes
    else [0xE0 + u.val / 4096, 0x80 + u.val / 64 % 64, 0x80 + u.val % 64]
  | u :: v :: rest =>
    if u.val < 0x80 then u.val :: utf8Encode (v :: rest)
    else if u.val < 0x800 then
      (0xC0 + u.val / 64) :: (0x80 + u.val % 64) :: utf8Encode (v :: rest)
    else if isHighSurrogate u.val then
      if isLowSurrogate v.val then
        let cp := 0x10000 + (u.val - 0xD800) * 1024 + (v.val - 0xDC00)
        (0xF0 + cp / 262144) :: (0x80 + cp / 4096 % 64) ::
          (0x80 + cp / 64 % 64) :: (0x80 + cp % 64) :: utf8Encode rest
      else replacementBytes ++ utf8Encode (v :: rest)
    else if isLowSurrogate u.val then replacementBytes ++ utf8Encode (v :: rest)
    else
      (0xE0 + u.val / 4096) :: (0x80 + u.val / 64 % 64) ::
        (0x80 + u.val % 64) :: utf8Encode (v :: rest)

def inRange (lo hi b : Nat) : Bool := lo ≤ b && b ≤ hi

/-- Bounds of the first continuation byte after lead byte `b0`. -/
def firstContLo (b0 : Nat) : Nat :=
  if b0 = 0xE0 then 0xA0 else if b0 = 0xF0 then 0x90 else 0x80

def firstContHi (b0 : Nat) : Nat :=
  if b0 = 0xED then 0x9F else if b0 = 0xF4 then 0x8F else 0xBF

/-- State of the UTF-8 decoder between two bytes: the number of continuation
bytes still expected, the code point bits read so far, and the bounds the next
byte has to meet. -/
structure Utf8State where
  needed : Nat
  codePoint : Nat
  lower : Nat
  upper : Nat
deriving DecidableEq, Repr

def Utf8State.start : Utf8State := ⟨0, 0, 0x80, 0xBF⟩

/-- What the decoder does with a byte when no sequence is open. -/
def utf8Lead (b : Nat) : Utf8State × JSString :=
  if b < 0x80 then (Utf8State.start, [unit b])
  else if inRange 0xC2 0xDF b then (⟨1, b - 0xC0, 0x80, 0xBF⟩, [])
  else if inRange 0xE0 0xEF b then
    (⟨2, b - 0xE0, firstContLo b, firstContHi b⟩, [])
  else if inRange 0xF0 0xF4 b then
    (⟨3, b - 0xF0, firstContLo b, firstContHi b⟩, [])
  else (Utf8State.start, [unit 0xFFFD])

/-- One step of the decoder: the next state and the code units emitted. A byte
that breaks an open sequence yields U+FFFD and is then read again as a lead
byte. -/
def utf8Step (st : Utf8State) (b : Nat) : Utf8State × JSString :=
  if st.needed = 0 then utf8Lead b
  else if inRange st.lower st.upper b then
    let cp := st.codePoint * 64 + (b - 0x80)
    if st.needed = 1 then (Utf8State.start, codePointUnits cp)
    else (⟨st.needed - 1, cp, 0x80, 0xBF⟩, [])
  else ((utf8Lead b).1, unit 0xFFFD :: (utf8Lead b).2)

def utf8DecodeFrom (st : Utf8State) : List Nat → JSString
  | [] => if st.needed = 0 then [] else [unit 0xFFFD]
  | b :: rest => (utf8Step st b).2 ++ utf8DecodeFrom (utf8Step st b).1 rest

/-- Mirrors `buf.toString()` (UTF-8 decoding with replacement): every maximal
ill-formed subsequence becomes one U+FFFD; never fails. -/
def utf8Decode (bytes : List Nat) : JSString := utf8DecodeFrom Utf8State.start bytes

/-- The character of the base64 alphabet for a six-bit value. -/
def base64Char (n : Nat) : CodeUnit :=
  if n < 26 then unit (65 + n)
  else if n < 52 then unit (97 + (n - 26))
  else if n < 62 then unit (48 + (n - 52))
  else if n = 62 then unit 43
  else unit 47

/-- Mirrors `buf.toString('base64')`: RFC 4648 with `=` padding. -/
def base64Encode : List Nat → JSString
  | [] => []
  | [a] => [base64Char (a / 4), base64Char (a % 4 * 16), unit 61, unit 61]
  | [a, b] =>
    [base64Char (a / 4), base64Char (a % 4 * 16 + b / 16),
      base64Char (b % 16 * 4), unit 61]
  | a :: b :: c :: rest =>
    base64Char (a / 4) :: base64Char (a % 4 * 16 + b / 16) ::
      base64Char (b % 16 * 4 + c / 64) :: base64Char (c % 64) ::
      base64Encode rest

/-- The six-bit value of a character, for both the standard and the URL-safe
alphabet; `none` for every other character. The decoder looks only at the low
eight bits of a code unit. -/
def unbase64 (u : CodeUnit) : Option Nat :=
  let c := u.val % 256
  if 65 ≤ c ∧ c ≤ 90 then some (c - 65)
  else if 97 ≤ c ∧ c ≤ 122 then some (c - 97 + 26)
  else if 48 ≤ c ∧ c ≤ 57 then some (c - 48 + 52)
  else if c = 43 ∨ c = 45 then some 62
  else if c = 47 ∨ c = 95 then some 63
  else none

/-- The six-bit values read by the base64 decoder: characters outside the
alphabet are skipped and reading stops at the first `=`. -/
def sextets : JSString → List Nat
  | [] => []
  | u :: rest =>
    match unbase64 u with
    | some n => n :: sextets rest
    | none => if u.val % 256 = 61 then [] else sextets rest

/-- Packs six-bit values into bytes, four values to three bytes; a final
group of two or three values yields one or two bytes. -/
def packSextets : List Nat → List Nat
  | a :: b :: c :: d :: rest =>
    ((a * 4 + b / 16) % 256) :: ((b % 16 * 16 + c / 4) % 256) ::
      ((c % 4 * 64 + d) % 256) :: packSextets rest
  | [a, b, c] => [(a * 4 + b / 16) % 256, (b % 16 * 16 + c / 4) % 256]
  | [a, b] => [(a * 4 + b / 16) % 256]
  | _ => []

/-- Mirrors `Buffer.from(s, 'base64')`: lenient decoding, never fails. -/
def base64Decode (s : JSString) : List Nat := packSextets (sextets s)

/-! ## The token -/

/-- Mirrors `generateToken(email)`; `now` is the value of `Date.now()`. -/
def generateToken (email : JSString) (now : Int) : JSString :=
  let data := email ++ lit ":" ++ numberToString now
  base64Encode (utf8Encode data)

/-- Mirrors `Buffer.from(token, 'base64').toString()`. For a string argument
neither call throws, so the result is always `Except.ok`. -/
def decodeToken (token : JSString) : Except Unit JSString :=
  Except.ok (utf8Decode (base64Decode token))

/-! ## The user database -/

/-- A record stored in `users`. -/
structure Account where
  email : JSString
  password : JSString
  name : JSString
  createdAt : JSString
deriving DecidableEq, Repr

/-- Mirrors `const users = new Map()`: the entries in insertion order. -/
abbrev Users := List (JSString × Account)

namespace Users

/-- Mirrors `users.get(key)`. -/
def get : Users → JSString → Option Account
  | [], _ => none
  | (k, v) :: rest, key => if k = key then some v else get rest key

/-- Mirrors `users.has(key)`. -/
def has (users : Users) (key : JSString) : Bool := (users.get key).isSome

/-- Mirrors `users.set(key, value)`: an existing key keeps its place and gets
the new value, a new key is added at the end. -/
def set : Users → JSString → Account → Users
  | [], key, value => [(key, value)]
  | (k, v) :: rest, key, value =>
    if k = key then (k, value) :: rest else (k, v) :: set rest key value

/-- Mirrors `users.size`. -/
def size (users : Users) : Nat := users.length

/-- Mirrors `Array.from(users.keys())`. -/
def keys (users : Users) : List JSString := users.map Prod.fst

end Users

/-! ## Requests and responses -/

/-- A value of the `remember` field, which the server only passes on. -/
inductive JSValue where
  | null
  | bool (b : Bool)
  | number (n : Int)
  | string (s : JSString)
deriving DecidableEq, Repr

/-- The `user` object of a response body. -/
structure UserView where
  email : JSString
  name : JSString
  createdAt : Option JSString := none
deriving DecidableEq, Repr

/-- A response: the status code and the properties of the JSON body; a
property that the body does not have is `none`. -/
structure Response where
  status : Nat
  success : Option Bool := none
  valid : Option Bool := none
  message : Option String := none
  token : Option JSString := none
  user : Option UserView := none
  rememberMe : Option JSValue := none
  totalUsers : Option Nat := none
  registeredEmails : Option (List JSString) := none
  timestamp : Option JSString := none
deriving DecidableEq, Repr

/-- Mirrors `!x` for a field that is absent or a string. -/
def falsy : Option JSString → Bool
  | none => true
  | some s => s.isEmpty

/-! ## Handlers -/

/-- Mirrors `email.split('@')[0]`. -/
def localPart (email : JSString) : JSString := (first (split (unit 64) email)).getD []

/-- Mirrors `app.post('/api/auth/login', ...)`. `nowIso` is the value of
`new Date().toISOString()` and `nowMs` the value of `Date.now()`, each read
where the handler reads it. The `filter` is the test
`user && user.password === password`. -/
def login (users : Users) (email password : Option JSString)
    (remember : Option JSValue) (nowIso : JSString) (nowMs : Int) : Users × Response :=
  match email, password with
  | some email, some password =>
    if email.isEmpty || password.isEmpty then
      (users, { status := 400, success := some false,
                message := some "Email and password required" })
    else
      match (users.get email).filter (fun user => user.password = password) with
      | some user =>
        (users, { status := 200, success := some true,
                  message := some "Login successful",
                  token := some (generateToken email nowMs),
                  user := some { email := user.email, name := user.name,
                                 createdAt := some user.createdAt },
                  rememberMe := remember })
      | none =>
        (users.set email { email := email, password := password,
                           name := localPart email, createdAt := nowIso },
          { status := 200, success := some true,
            message := some "Login successful (demo mode)",
            token := some (generateToken email nowMs),
            user := some { email := email, name := localPart email } })
  | _, _ =>
    (users, { status := 400, success := some false,
              message := some "Email and password required" })

/-- Mirrors `app.post('/api/auth/signup', ...)`. `nowIso` is the clock
reading stored in the account, `nowMs` the one in the token and `nowIso2` the
one written to the response. -/
def signup (users : Users) (name email password : Option JSString)
    (nowIso : JSString) (nowMs : Int) (nowIso2 : JSString) : Users × Response :=
  match name, email, password with
  | some name, some email, some password =>
    if email.isEmpty || password.isEmpty || name.isEmpty then
      (users, { status := 400, success := some false,
                message := some "Name, email and password required" })
    else if password.length < 8 then
      (users, { status := 400, success := some false,
                message := some "Password must be at least 8 characters" })
    else if users.has email then
      (users, { status := 409, success := some false,
                message := some "Email already registered" })
    else
      (users.set email { email := email, password := password, name := name,
                         createdAt := nowIso },
        { status := 201, success := some true,
          message := some "Account created successfully",
          token := some (generateToken email nowMs),
          user := some { email := email, name := name, createdAt := some nowIso2 } })
  | _, _, _ =>
    (users, { status := 400, success := some false,
              message := some "Name, email and password required" })

/-- Mirrors `decoded.split(':')[0]`. -/
def emailOf (decoded : JSString) : JSString := (first (split (unit 58) decoded)).getD []

/-- Mirrors `app.post('/api/auth/verify', ...)`; the `catch` branch is the
`Except.error` case. -/
def verify (users : Users) (token : Option JSString) : Users × Response :=
  if falsy token then
    (users, { status := 400, success := some false, message := some "Token required" })
  else
    match decodeToken (token.getD []) with
    | Except.ok decoded =>
      let email := emailOf decoded
      match users.get email with
      | some user =>
        (users, { status := 200, success := some true, valid := some true,
                  user := some { email := email, name := user.name } })
      | none =>
        (users, { status := 401, success := some false, valid := some false,
                  message := some "Invalid token" })
    | Except.error _ =>
      (users, { status := 401, success := some false, valid := some false,
                message := some "Token verification failed" })

/-- Mirrors `app.post('/api/auth/logout', ...)`. -/
def logout (users : Users) : Users × Response :=
  (users, { status := 200, success := some true,
            message := some "Logged out successfully" })

/-- Mirrors `app.get('/api/auth/me', ...)`; `authorization` is
`req.headers.authorization`. -/
def currentUser (users : Users) (authorization : Option JSString) : Users × Response :=
  let token := authorization.map (replace (lit "Bearer ") [])
  if falsy token then
    (users, { status := 401, success := some false, message := some "No token provided" })
  else
    match decodeToken (token.getD []) with
    | Except.ok decoded =>
      let email := emailOf decoded
      match users.get email with
      | some user =>
        (users, { status := 200, success := some true,
                  user := some { email := user.email, name := user.name,
                                 createdAt := some user.createdAt } })
      | none =>
        (users, { status := 404, success := some false, message := some "User not found" })
    | Except.error _ =>
      (users, { status := 401, success := some false, message := some "Invalid token" })

/-- Mirrors `app.get('/api/auth/stats', ...)`. -/
def stats (users : Users) (nowIso : JSString) : Users × Response :=
  (users, { status := 200, totalUsers := some users.size,
            registeredEmails := some users.keys, timestamp := some nowIso })

/-! ## Request sequences -/

/-- A request to one of the six handlers, together with the clock readings the
handler takes while serving it. -/
inductive Request where
  | login (email password : Option JSString) (remember : Option JSValue)
      (nowIso : JSString) (nowMs : Int)
  | signup (name email password : Option JSString)
      (nowIso : JSString) (nowMs : Int) (nowIso2 : JSString)
  | verify (token : Option JSString)
  | logout
  | currentUser (authorization : Option JSString)
  | stats (nowIso : JSString)
deriving DecidableEq, Repr

/-- Serves one request on the database `users`. -/
def handle (users : Users) : Request → Users × Response
  | .login email password remember nowIso nowMs =>
    AuthUI.login users email password remember nowIso nowMs
  | .signup name email password nowIso nowMs nowIso2 =>
    AuthUI.signup users name email password nowIso nowMs nowIso2
  | .verify token => AuthUI.verify users token
  | .logout => AuthUI.logout users
  | .currentUser authorization => AuthUI.currentUser users authorization
  | .stats nowIso => AuthUI.stats users nowIso

/-- The database after serving the requests in order. -/
def run (users : Users) : List Request → Users
  | [] => users
  | r :: rs => run (handle users r).1 rs

/-- The email of a request that counts as a successful login or signup: a
login request answered 200 or a signup request answered 201. -/
def successEmail (r : Request) (resp : Response) : Option JSString :=
  match r with
  | .login (some email) _ _ _ _ => if resp.status = 200 then some email else none
  | .signup _ (some email) _ _ _ _ => if resp.status = 201 then some email else none
  | _ => none

/-- The emails of the login requests answered 200 and of the signup requests
answered 201 while serving the requests in order. -/
def successEmails (users : Users) : List Request → List JSString
  | [] => []
  | r :: rs =>
    (successEmail r (handle users r).2).toList ++ successEmails (handle users r).1 rs

/-- A database that the server can hold: the result of serving some requests
from the empty database. -/
def Reachable (users : Users) : Prop := ∃ rs : List Request, run [] rs = users

/-! ## Auxiliary definitions for the proofs -/

/-- The bytes that `utf8Encode` writes for a code unit that is not a
surrogate. -/
def bmpBytes (u : Nat) : List Nat :=
  if u < 0x80 then [u]
  else if u < 0x800 then [0xC0 + u / 64, 0x80 + u % 64]
  else [0xE0 + u / 4096, 0x80 + u / 64 % 64, 0x80 + u % 64]

/-- What every stored entry satisfies in a database the server can hold: the
key and the password are not empty and the `email` field is the key. -/
def EntriesOk (users : Users) : Prop :=
  ∀ p ∈ users, p.1 ≠ [] ∧ p.2.password ≠ [] ∧ p.2.email = p.1

/-- An account as `signup` stores it. -/
def exampleAccount : Account :=
  { email := lit "b@x.com", password := lit "secret123", name := lit "Bea",
    createdAt := lit "2024-01-01T00:00:00.000Z" }

/-- A database with one account. -/
def exampleUsers : Users := [(lit "b@x.com", exampleAccount)]

/-- The requests that produce `exampleUsers`. -/
def exampleRequests : List Request :=
  [Request.signup (some (lit "Bea")) (some (lit "b@x.com")) (some (lit "secret123"))
    (lit "2024-01-01T00:00:00.000Z") 1704067200000 (lit "2024-01-01T00:00:00.001Z")]

/-! ## The codec: base64 -/

theorem unit_val (u : CodeUnit) : unit u.val = u := by
  apply Fin.ext
  simp [unit, Nat.mod_eq_of_lt u.isLt]

theorem unit_val_of_lt {n : Nat} (h : n < 65536) : (unit n).val = n := by
  simp [unit, Nat.mod_eq_of_lt h]

theorem unbase64_base64Char : ∀ n, n < 64 → unbase64 (base64Char n) = some n := by
  decide

theorem base64Char_ne_pad : ∀ n, n < 64 → (base64Char n).val % 256 ≠ 61 := by
  decide

theorem sextets_base64Char {n : Nat} (h : n < 64) (rest : JSString) :
    sextets (base64Char n :: rest) = n :: sextets rest := by
  simp [sextets, unbase64_base64Char n h]

theorem sextets_pad (rest : JSString) : sextets (unit 61 :: rest) = [] := by
  have h : unbase64 (unit 61) = none := by decide
  have h2 : (unit 61).val % 256 = 61 := by decide
  simp [sextets, h, h2]

theorem base64Decode_base64Encode (bytes : List Nat) (h : ∀ b ∈ bytes, b < 256) :
    base64Decode (base64Encode bytes) = bytes := by
  unfold base64Decode
  induction bytes using base64Encode.induct with
  | case1 => rfl
  | case2 a =>
    have ha : a < 256 := h a (by simp)
    rw [base64Encode, sextets_base64Char (by omega), sextets_base64Char (by omega), sextets_pad]
    simp only [packSextets, List.cons.injEq, and_true]
    omega
  | case3 a b =>
    have ha : a < 256 := h a (by simp)
    have hb : b < 256 := h b (by simp)
    rw [base64Encode, sextets_base64Char (by omega), sextets_base64Char (by omega),
      sextets_base64Char (by omega), sextets_pad]
    simp only [packSextets, List.cons.injEq, and_true]
    omega
  | case4 a b c rest ih =>
    have ha : a < 256 := h a (by simp)
    have hb : b < 256 := h b (by simp)
    have hc : c < 256 := h c (by simp)
    rw [base64Encode, sextets_base64Char (by omega), sextets_base64Char (by omega),
      sextets_base64Char (by omega), sextets_base64Char (by omega)]
    simp only [packSextets, List.cons.injEq]
    refine ⟨by omega, by omega, by omega, ?_⟩
    exact ih (fun x hx => h x (by simp [hx]))

/-! ## The codec: UTF-8 -/

theorem utf8Decode_ascii {b : Nat} (h : b < 0x80) (tail : List Nat) :
    utf8DecodeFrom Utf8State.start (b :: tail)
      = unit b :: utf8DecodeFrom Utf8State.start tail := by
  simp [utf8DecodeFrom, utf8Step, utf8Lead, Utf8State.start, h]

theorem utf8Decode_two {b0 b1 : Nat} (h0 : 0xC2 ≤ b0 ∧ b0 ≤ 0xDF)
    (h1 : 0x80 ≤ b1 ∧ b1 ≤ 0xBF) (tail : List Nat) :
    utf8DecodeFrom Utf8State.start (b0 :: b1 :: tail)
      = codePointUnits ((b0 - 0xC0) * 64 + (b1 - 0x80))
          ++ utf8DecodeFrom Utf8State.start tail := by
  have e1 : ¬ (b0 < 0x80) := by omega
  simp [utf8DecodeFrom, utf8Step, utf8Lead, Utf8State.start, e1, inRange, h0, h1]

theorem utf8Decode_three {b0 b1 b2 : Nat} (h0 : 0xE0 ≤ b0 ∧ b0 ≤ 0xEF)
    (h1 : firstContLo b0 ≤ b1 ∧ b1 ≤ firstContHi b0)
    (h2 : 0x80 ≤ b2 ∧ b2 ≤ 0xBF) (tail : List Nat) :
    utf8DecodeFrom Utf8State.start (b0 :: b1 :: b2 :: tail)
      = codePointUnits (((b0 - 0xE0) * 64 + (b1 - 0x80)) * 64 + (b2 - 0x80))
          ++ utf8DecodeFrom Utf8State.start tail := by
  have e1 : ¬ (b0 < 0x80) := by omega
  have e2 : ¬ (0xC2 ≤ b0 ∧ b0 ≤ 0xDF) := by omega
  simp [utf8DecodeFrom, utf8Step, utf8Lead, Utf8State.start, e1, e2, inRange, h0, h1, h2]

theorem utf8Decode_four {b0 b1 b2 b3 : Nat} (h0 : 0xF0 ≤ b0 ∧ b0 ≤ 0xF4)
    (h1 : firstContLo b0 ≤ b1 ∧ b1 ≤ firstContHi b0)
    (h2 : 0x80 ≤ b2 ∧ b2 ≤ 0xBF) (h3 : 0x80 ≤ b3 ∧ b3 ≤ 0xBF) (tail : List Nat) :
    utf8DecodeFrom Utf8State.start (b0 :: b1 :: b2 :: b3 :: tail)
      = codePointUnits ((((b0 - 0xF0) * 64 + (b1 - 0x80)) * 64 + (b2 - 0x80)) * 64 + (b3 - 0x80))
          ++ utf8DecodeFrom Utf8State.start tail := by
  have e1 : ¬ (b0 < 0x80) := by omega
  have e2 : ¬ (0xC2 ≤ b0 ∧ b0 ≤ 0xDF) := by omega
  have e3 : ¬ (0xE0 ≤ b0 ∧ b0 ≤ 0xEF) := by omega
  simp [utf8DecodeFrom, utf8Step, utf8Lead, Utf8State.start, e1, e2, e3, inRange, h0, h1, h2, h3]

theorem utf8Encode_cons_bmp (u : CodeUnit) (rest : JSString)
    (hh : isHighSurrogate u.val = false) (hl : isLowSurrogate u.val = false) :
    utf8Encode (u :: rest) = bmpBytes u.val ++ utf8Encode rest := by
  cases rest with
  | nil =>
    simp only [utf8Encode, bmpBytes, hh, hl, List.append_nil, Bool.or_self, Bool.false_eq_true,
      if_false]
  | cons v rest =>
    simp only [utf8Encode, bmpBytes, hh, hl, Bool.false_eq_true, if_false]
    split_ifs <;> rfl

theorem utf8Encode_cons_pair (u v : CodeUnit) (rest : JSString)
    (hh : isHighSurrogate u.val = true) (hl : isLowSurrogate v.val = true) :
    utf8Encode (u :: v :: rest) =
      (0xF0 + (0x10000 + (u.val - 0xD800) * 1024 + (v.val - 0xDC00)) / 262144) ::
      (0x80 + (0x10000 + (u.val - 0xD800) * 1024 + (v.val - 0xDC00)) / 4096 % 64) ::
      (0x80 + (0x10000 + (u.val - 0xD800) * 1024 + (v.val - 0xDC00)) / 64 % 64) ::
      (0x80 + (0x10000 + (u.val - 0xD800) * 1024 + (v.val - 0xDC00)) % 64) ::
      utf8Encode rest := by
  have h := hh
  simp only [isHighSurrogate, Bool.and_eq_true, decide_eq_true_eq] at h
  have e1 : ¬ (u.val < 0x80) := by omega
  have e2 : ¬ (u.val < 0x800) := by omega
  simp only [utf8Encode, e1, e2, hh, hl, if_false, if_true]

theorem utf8Decode_bmpBytes {u : Nat} (hu : u < 65536)
    (hh : isHighSurrogate u = false) (hl : isLowSurrogate u = false) (tail : List Nat) :
    utf8DecodeFrom Utf8State.start (bmpBytes u ++ tail)
      = unit u :: utf8DecodeFrom Utf8State.start tail := by
  simp only [isHighSurrogate, isLowSurrogate, Bool.and_eq_false_iff, decide_eq_false_iff_not] at hh hl
  unfold bmpBytes
  split_ifs with h1 h2
  · exact utf8Decode_ascii h1 tail
  · have := @utf8Decode_two (0xC0 + u / 64) (0x80 + u % 64) (by omega) (by omega) tail
    simp only [List.cons_append, List.nil_append]
    rw [this]
    have e : (0xC0 + u / 64 - 0xC0) * 64 + (0x80 + u % 64 - 0x80) = u := by omega
    rw [e]
    simp [codePointUnits, hu]
  · have := @utf8Decode_three (0xE0 + u / 4096) (0x80 + u / 64 % 64) (0x80 + u % 64)
      (by omega) (by unfold firstContLo firstContHi; split_ifs <;> omega) (by omega) tail
    simp only [List.cons_append, List.nil_append]
    rw [this]
    have e : ((0xE0 + u / 4096 - 0xE0) * 64 + (0x80 + u / 64 % 64 - 0x80)) * 64
        + (0x80 + u % 64 - 0x80) = u := by omega
    rw [e]
    simp [codePointUnits, hu]

theorem utf8Decode_pair {u v : Nat} (hh : isHighSurrogate u = true)
    (hl : isLowSurrogate v = true) (tail : List Nat) :
    utf8DecodeFrom Utf8State.start
        ((0xF0 + (0x10000 + (u - 0xD800) * 1024 + (v - 0xDC00)) / 262144) ::
        (0x80 + (0x10000 + (u - 0xD800) * 1024 + (v - 0xDC00)) / 4096 % 64) ::
        (0x80 + (0x10000 + (u - 0xD800) * 1024 + (v - 0xDC00)) / 64 % 64) ::
        (0x80 + (0x10000 + (u - 0xD800) * 1024 + (v - 0xDC00)) % 64) :: tail)
      = unit u :: unit v :: utf8DecodeFrom Utf8State.start tail := by
  simp only [isHighSurrogate, isLowSurrogate, Bool.and_eq_true, decide_eq_true_eq] at hh hl
  generalize hcp : 0x10000 + (u - 0xD800) * 1024 + (v - 0xDC00) = cp
  have hlo : 0x10000 ≤ cp := by omega
  have hhi : cp < 0x110000 := by omega
  rw [utf8Decode_four (by omega) (by unfold firstContLo firstContHi; split_ifs <;> omega)
    (by omega) (by omega) tail]
  have e : (((0xF0 + cp / 262144 - 0xF0) * 64 + (0x80 + cp / 4096 % 64 - 0x80)) * 64
      + (0x80 + cp / 64 % 64 - 0x80)) * 64 + (0x80 + cp % 64 - 0x80) = cp := by omega
  rw [e]
  have e1 : ¬ (cp < 0x10000) := by omega
  have e2 : 0xD800 + (cp - 0x10000) / 1024 = u := by omega
  have e3 : 0xDC00 + (cp - 0x10000) % 1024 = v := by omega
  simp only [codePointUnits, e1, if_false, e2, e3, List.cons_append, List.nil_append]

/-- Decoding the UTF-8 encoding of a well-formed string gives the string
back. -/
theorem utf8Decode_utf8Encode (s : JSString) (h : isWellFormed s = true) :
    utf8Decode (utf8Encode s) = s := by
  unfold utf8Decode
  induction s using isWellFormed.induct with
  | case1 => rfl
  | case2 u hu v rest ih =>
    simp only [isWellFormed, hu, if_true, Bool.and_eq_true] at h
    rw [utf8Encode_cons_pair u v rest hu h.1, utf8Decode_pair hu h.1, ih h.2, unit_val, unit_val]
  | case3 u hu => simp [isWellFormed, hu] at h
  | case4 u rest hu hl =>
    unfold isWellFormed at h
    simp [hu, hl] at h
  | case5 u rest hu hl ih =>
    unfold isWellFormed at h
    simp only [hu, hl, if_false] at h
    rw [utf8Encode_cons_bmp u rest (by simpa using hu) (by simpa using hl),
      utf8Decode_bmpBytes u.isLt (by simpa using hu) (by simpa using hl), ih h, unit_val]

theorem utf8Encode_lt (s : JSString) : ∀ b ∈ utf8Encode s, b < 256 := by
  induction s using utf8Encode.induct with
  | case1 => simp [utf8Encode]
  | case2 u h1 => simp [utf8Encode, h1]; omega
  | case3 u h1 h2 => simp [utf8Encode, h1, h2]; omega
  | case4 u h1 h2 h3 => simp [utf8Encode, h1, h2, h3, replacementBytes]
  | case5 u h1 h2 h3 => 
    have := u.isLt
    simp [utf8Encode, h1, h2, h3]; omega
  | case6 u v rest h1 ih => 
    intro b hb
    simp [utf8Encode, h1] at hb
    rcases hb with hb | hb
    · omega
    · exact ih b hb
  | case7 u v rest h1 h2 ih =>
    intro b hb
    simp [utf8Encode, h1, h2] at hb
    rcases hb with hb | hb | hb
    · omega
    · omega
    · exact ih b hb
  | case8 u v rest h1 h2 h3 h4 ih =>
    intro b hb
    have := u.isLt
    have := v.isLt
    simp only [utf8Encode, h1, h2, h3, h4, if_true, if_false, List.mem_cons] at hb
    simp only [isHighSurrogate, isLowSurrogate, Bool.and_eq_true, decide_eq_true_eq] at h3 h4
    rcases hb with hb | hb | hb | hb | hb
    · omega
    · omega
    · omega
    · omega
    · exact ih b hb
  | case9 u v rest h1 h2 h3 h4 ih =>
    intro b hb
    simp [utf8Encode, h1, h2, h3, h4, replacementBytes] at hb
    rcases hb with hb | hb | hb | hb
    · omega
    · omega
    · omega
    · exact ih b hb
  | case10 u v rest h1 h2 h3 h4 ih =>
    intro b hb
    simp [utf8Encode, h1, h2, h3, h4, replacementBytes] at hb
    rcases hb with hb | hb | hb | hb
    · omega
    · omega
    · omega
    · exact ih b hb
  | case11 u v rest h1 h2 h3 h4 ih =>
    intro b hb
    have := u.isLt
    simp [utf8Encode, h1, h2, h3, h4] at hb
    rcases hb with hb | hb | hb | hb
    · omega
    · omega
    · omega
    · exact ih b hb

/-! ## Strings: helper facts -/

theorem isWellFormed_append (a b : JSString) (ha : isWellFormed a = true)
    (hb : isWellFormed b = true) : isWellFormed (a ++ b) = true := by
  induction a using isWellFormed.induct with
  | case1 => simpa using hb
  | case2 u hu v rest ih =>
    simp only [isWellFormed, hu, if_true, Bool.and_eq_true] at ha
    simp only [List.cons_append, isWellFormed, hu, if_true, Bool.and_eq_true]
    exact ⟨ha.1, ih ha.2⟩
  | case3 u hu => simp [isWellFormed, hu] at ha
  | case4 u rest hu hl =>
    unfold isWellFormed at ha
    simp [hu, hl] at ha
  | case5 u rest hu hl ih =>
    unfold isWellFormed at ha
    simp only [hu, hl, if_false] at ha
    rw [List.cons_append]
    unfold isWellFormed
    simp only [hu, hl, if_false]
    exact ih ha

theorem isWellFormed_of_ascii (s : JSString) (h : ∀ u ∈ s, u.val < 0x80) :
    isWellFormed s = true := by
  induction s with
  | nil => rfl
  | cons u rest ih =>
    have hu : u.val < 0x80 := h u (by simp)
    have e1 : isHighSurrogate u.val = false := by
      simp [isHighSurrogate]; omega
    have e2 : isLowSurrogate u.val = false := by
      simp [isLowSurrogate]; omega
    unfold isWellFormed
    simp only [e1, e2, Bool.false_eq_true, if_false]
    exact ih (fun x hx => h x (by simp [hx]))

/-- The digits written by `digitsRev` are the decimal digits of the number:
they are digits, and read as base 10 they give the number back. -/
theorem digitsRev_value (fuel n : Nat) (h : n < fuel) :
    Nat.ofDigits 10 ((digitsRev fuel n).map (fun u => u.val - 48)) = n ∧
    ∀ u ∈ digitsRev fuel n, 48 ≤ u.val ∧ u.val ≤ 57 := by
  induction fuel generalizing n with
  | zero => omega
  | succ fuel ih =>
    unfold digitsRev
    split_ifs with h10
    · have hv : (unit (48 + n)).val = 48 + n := unit_val_of_lt (by omega)
      simp only [List.map_cons, List.map_nil, hv, Nat.ofDigits_singleton, List.mem_singleton,
        forall_eq]
      omega
    · obtain ⟨ih1, ih2⟩ := ih (n / 10) (by omega)
      have hv : (unit (48 + n % 10)).val = 48 + n % 10 := unit_val_of_lt (by omega)
      refine ⟨?_, ?_⟩
      · simp only [List.map_cons, hv, Nat.ofDigits_cons, ih1]
        omega
      · intro u hu
        simp only [List.mem_cons] at hu
        rcases hu with hu | hu
        · subst hu
          omega
        · exact ih2 u hu

theorem digitsRev_ascii (fuel n : Nat) : ∀ u ∈ digitsRev fuel n, u.val < 0x80 := by
  induction fuel generalizing n with
  | zero => simp [digitsRev]
  | succ fuel ih =>
    intro u hu
    unfold digitsRev at hu
    split_ifs at hu with h
    · simp only [List.mem_singleton] at hu
      subst hu
      simp only [unit]
      omega
    · simp only [List.mem_cons] at hu
      rcases hu with hu | hu
      · subst hu
        simp only [unit]
        omega
      · exact ih _ u hu

theorem numberToString_ascii (n : Int) : ∀ u ∈ numberToString n, u.val < 0x80 := by
  intro u hu
  unfold numberToString at hu
  split_ifs at hu
  · simp only [List.mem_cons, List.mem_reverse] at hu
    rcases hu with hu | hu
    · subst hu; decide
    · exact digitsRev_ascii _ _ u hu
  · simp only [List.mem_reverse] at hu
    exact digitsRev_ascii _ _ u hu

theorem isWellFormed_tokenData (e : JSString) (t : Int) (h : isWellFormed e = true) :
    isWellFormed (e ++ lit ":" ++ numberToString t) = true := by
  apply isWellFormed_append
  · exact isWellFormed_append _ _ h (by decide)
  · exact isWellFormed_of_ascii _ (numberToString_ascii t)

/-- The string inside a token: decoding undoes `generateToken` on well-formed
emails. -/
theorem decode_generateToken (e : JSString) (t : Int) (h : isWellFormed e = true) :
    utf8Decode (base64Decode (generateToken e t)) = e ++ lit ":" ++ numberToString t := by
  simp only [generateToken]
  rw [base64Decode_base64Encode _ (utf8Encode_lt _), utf8Decode_utf8Encode _
    (isWellFormed_tokenData e t h)]

theorem split_ne_nil (sep : CodeUnit) (s : JSString) : split sep s ≠ [] := by
  induction s with
  | nil => simp [split]
  | cons c cs ih =>
    unfold split
    split_ifs
    · simp
    · cases h : split sep cs with
      | nil => exact absurd h ih
      | cons seg segs => simp

/-- The element `[0]` of a split is the part before the first separator (the
whole string when there is none). -/
theorem first_split (sep : CodeUnit) (s : JSString) :
    first (split sep s) = some (s.takeWhile (fun c => c ≠ sep)) := by
  induction s with
  | nil => simp [split, first]
  | cons c cs ih =>
    unfold split
    by_cases h : c = sep
    · simp [h, first]
    · simp only [h, if_false]
      cases hs : split sep cs with
      | nil => exact absurd hs (split_ne_nil sep cs)
      | cons seg segs =>
        rw [hs] at ih
        simp only [first, List.head?_cons, Option.some.injEq] at ih
        simp [first, List.takeWhile_cons, h, ih]

theorem emailOf_eq (decoded : JSString) :
    emailOf decoded = decoded.takeWhile (fun c => c ≠ unit 58) := by
  simp [emailOf, first_split]

theorem localPart_eq (email : JSString) :
    localPart email = email.takeWhile (fun c => c ≠ unit 64) := by
  simp [localPart, first_split]

theorem lit_colon : lit ":" = [unit 58] := by decide

theorem emailOf_tokenData (e rest : JSString) (h : unit 58 ∉ e) :
    emailOf (e ++ lit ":" ++ rest) = e := by
  rw [emailOf_eq, lit_colon]
  induction e with
  | nil => simp [List.takeWhile]
  | cons c cs ih =>
    have hc : c ≠ unit 58 := fun hc => h (by simp [hc])
    have hcs : unit 58 ∉ cs := fun hcs => h (by simp [hcs])
    simp only [List.cons_append, List.takeWhile_cons, hc, ne_eq, not_false_eq_true,
      decide_True, if_true]
    congr 1
    exact ih hcs

theorem base64Encode_ne_nil (bytes : List Nat) (h : bytes ≠ []) : base64Encode bytes ≠ [] := by
  match bytes, h with
  | [a], _ => simp [base64Encode]
  | [a, b], _ => simp [base64Encode]
  | a :: b :: c :: rest, _ => simp [base64Encode]

theorem utf8Encode_ne_nil (s : JSString) (h : s ≠ []) : utf8Encode s ≠ [] := by
  match s, h with
  | [u], _ =>
    unfold utf8Encode
    split_ifs <;> simp [replacementBytes]
  | u :: v :: rest, _ =>
    unfold utf8Encode
    split_ifs <;> simp [replacementBytes]

theorem generateToken_ne_nil (e : JSString) (t : Int) : generateToken e t ≠ [] := by
  unfold generateToken
  apply base64Encode_ne_nil
  apply utf8Encode_ne_nil
  rw [lit_colon]
  simp

/-! ## The user database: helper facts -/

namespace Users

theorem get_set_self (users : Users) (k : JSString) (v : Account) :
    (users.set k v).get k = some v := by
  induction users with
  | nil => simp [set, get]
  | cons p rest ih =>
    obtain ⟨k0, v0⟩ := p
    by_cases h : k0 = k
    · simp [set, get, h]
    · simp [set, get, h, ih]

theorem get_set_other (users : Users) (k : JSString) (v : Account) (k2 : JSString)
    (h : k2 ≠ k) : (users.set k v).get k2 = users.get k2 := by
  induction users with
  | nil => simp [set, get, Ne.symm h]
  | cons p rest ih =>
    obtain ⟨k0, v0⟩ := p
    by_cases h0 : k0 = k
    · subst h0
      simp [set, get, Ne.symm h]
    · by_cases h1 : k0 = k2
      · subst h1
        simp [set, get, h0]
      · simp [set, get, h0, h1, ih]

theorem has_iff_mem_keys (users : Users) (k : JSString) :
    users.has k = true ↔ k ∈ users.keys := by
  induction users with
  | nil => simp [has, get, keys]
  | cons p rest ih =>
    obtain ⟨k0, v0⟩ := p
    by_cases h : k0 = k
    · simp [has, get, keys, h]
    · have h2 : ¬ k = k0 := fun e => h e.symm
      simp only [has, get, h, if_false, keys, List.map_cons, List.mem_cons, h2, false_or]
      simpa [has, keys] using ih

theorem has_eq_false_iff (users : Users) (k : JSString) :
    users.has k = false ↔ users.get k = none := by
  simp [has]

theorem has_of_get {users : Users} {k : JSString} {v : Account} (h : users.get k = some v) :
    users.has k = true := by
  simp [has, h]

theorem set_of_not_has (users : Users) (k : JSString) (v : Account)
    (h : users.has k = false) : users.set k v = users ++ [(k, v)] := by
  induction users with
  | nil => simp [set]
  | cons p rest ih =>
    obtain ⟨k0, v0⟩ := p
    by_cases h0 : k0 = k
    · simp [has, get, h0] at h
    · have h1 : has rest k = false := by simpa [has, get, h0] using h
      simp [set, h0, ih h1]

theorem keys_set_of_has (users : Users) (k : JSString) (v : Account)
    (h : users.has k = true) : (users.set k v).keys = users.keys := by
  induction users with
  | nil => simp [has, get] at h
  | cons p rest ih =>
    obtain ⟨k0, v0⟩ := p
    by_cases h0 : k0 = k
    · simp [set, keys, h0]
    · have h1 : has rest k = true := by simpa [has, get, h0] using h
      have := ih h1
      simp only [keys] at this
      simp [set, keys, h0, this]

theorem keys_set_of_not_has (users : Users) (k : JSString) (v : Account)
    (h : users.has k = false) : (users.set k v).keys = users.keys ++ [k] := by
  rw [set_of_not_has users k v h]
  simp [keys]

theorem size_set_of_has (users : Users) (k : JSString) (v : Account)
    (h : users.has k = true) : (users.set k v).size = users.size := by
  have := congrArg List.length (keys_set_of_has users k v h)
  simpa [keys, size] using this

theorem size_set_of_not_has (users : Users) (k : JSString) (v : Account)
    (h : users.has k = false) : (users.set k v).size = users.size + 1 := by
  rw [set_of_not_has users k v h]
  simp [size]

theorem mem_set (users : Users) (k : JSString) (v : Account) (p : JSString × Account)
    (h : p ∈ users.set k v) : p ∈ users ∨ p = (k, v) := by
  induction users with
  | nil => simpa [set] using h
  | cons q rest ih =>
    obtain ⟨k0, v0⟩ := q
    by_cases h0 : k0 = k
    · subst h0
      simp only [set, if_true, List.mem_cons] at h
      rcases h with h | h
      · exact Or.inr h
      · exact Or.inl (by simp [h])
    · simp only [set, h0, if_false, List.mem_cons] at h
      rcases h with h | h
      · exact Or.inl (by simp [h])
      · rcases ih h with h2 | h2
        · exact Or.inl (by simp [h2])
        · exact Or.inr h2

theorem mem_of_get {users : Users} {k : JSString} {v : Account} (h : users.get k = some v) :
    (k, v) ∈ users := by
  induction users with
  | nil => simp [get] at h
  | cons q rest ih =>
    obtain ⟨k0, v0⟩ := q
    by_cases h0 : k0 = k
    · simp only [get, h0, if_true, Option.some.injEq] at h
      simp [h0, h]
    · simp only [get, h0, if_false] at h
      simp [ih h]

end Users

theorem entriesOk_set (users : Users) (k : JSString) (v : Account) (h : EntriesOk users)
    (hk : k ≠ []) (hp : v.password ≠ []) (he : v.email = k) : EntriesOk (users.set k v) := by
  intro p hp2
  rcases Users.mem_set users k v p hp2 with h2 | h2
  · exact h p h2
  · subst h2
    exact ⟨hk, hp, he⟩

theorem isEmpty_eq_false {s : JSString} (h : s ≠ []) : s.isEmpty = false := by
  cases s with
  | nil => exact absurd rfl h
  | cons _ _ => rfl

theorem ne_nil_of_isEmpty_eq_false {s : JSString} (h : s.isEmpty = false) : s ≠ [] := by
  cases s with
  | nil => simp at h
  | cons _ _ => simp

theorem entriesOk_handle (users : Users) (r : Request) (h : EntriesOk users) :
    EntriesOk (handle users r).1 := by
  cases r with
  | login email password remember nowIso nowMs =>
    simp only [handle, login]
    split
    · rename_i e p
      split_ifs with hc
      · exact h
      · simp only [Bool.or_eq_true, not_or, Bool.not_eq_true] at hc
        have he := ne_nil_of_isEmpty_eq_false hc.1
        have hp := ne_nil_of_isEmpty_eq_false hc.2
        split
        · exact h
        · exact entriesOk_set _ _ _ h he hp rfl
    · exact h
  | signup name email password nowIso nowMs nowIso2 =>
    simp only [handle, signup]
    split
    · rename_i n e p
      split_ifs with hc h8 hhas
      · exact h
      · exact h
      · exact h
      · simp only [Bool.or_eq_true, not_or, Bool.not_eq_true] at hc
        exact entriesOk_set _ _ _ h (ne_nil_of_isEmpty_eq_false hc.1.1)
          (ne_nil_of_isEmpty_eq_false hc.1.2) rfl
    · exact h
  | verify token =>
    simp only [handle, verify]
    split_ifs
    · exact h
    · simp only [decodeToken]
      split <;> exact h
  | logout => exact h
  | currentUser authorization =>
    simp only [handle, currentUser]
    split_ifs
    · exact h
    · simp only [decodeToken]
      split <;> exact h
  | stats nowIso => exact h

theorem entriesOk_run (users : Users) (rs : List Request) (h : EntriesOk users) :
    EntriesOk (run users rs) := by
  induction rs generalizing users with
  | nil => exact h
  | cons r rs ih => exact ih _ (entriesOk_handle users r h)

theorem entriesOk_of_reachable {users : Users} (h : Reachable users) : EntriesOk users := by
  obtain ⟨rs, hrs⟩ := h
  rw [← hrs]
  exact entriesOk_run [] rs (fun p hp => by simp at hp)

/-! ## Handlers: what each branch returns -/

theorem verify_of_get_some (users : Users) (token : JSString) (acct : Account)
    (ht : token ≠ [])
    (h : users.get (emailOf (utf8Decode (base64Decode token))) = some acct) :
    verify users (some token) =
      (users, { status := 200, success := some true, valid := some true,
                user := some { email := emailOf (utf8Decode (base64Decode token)),
                               name := acct.name } }) := by
  simp [verify, falsy, isEmpty_eq_false ht, decodeToken, h]

theorem verify_of_get_none (users : Users) (token : JSString) (ht : token ≠ [])
    (h : users.get (emailOf (utf8Decode (base64Decode token))) = none) :
    verify users (some token) =
      (users, { status := 401, success := some false, valid := some false,
                message := some "Invalid token" }) := by
  simp [verify, falsy, isEmpty_eq_false ht, decodeToken, h]

theorem emailOf_generateToken (e : JSString) (t : Int) (hwf : isWellFormed e = true)
    (hcolon : unit 58 ∉ e) :
    emailOf (utf8Decode (base64Decode (generateToken e t))) = e := by
  rw [decode_generateToken e t hwf, emailOf_tokenData e _ hcolon]

theorem exampleUsers_reachable : Reachable exampleUsers := ⟨exampleRequests, by decide⟩

/-! ## C1, C2: tokens -/

/-- C1 (amended): for every email `e` that is a well-formed string without
`:` and every database in which `e` is registered, the verify handler answers a
token `generateToken(e)` issued at any time with status 200, `valid: true`,
`user.email = e` and `user.name` the stored name of `e`. -/
theorem verify_generateToken (users : Users) (e : JSString) (acct : Account) (t : Int)
    (hwf : isWellFormed e = true) (hcolon : unit 58 ∉ e)
    (hreg : users.get e = some acct) :
    verify users (some (generateToken e t)) =
      (users, { status := 200, success := some true, valid := some true,
                user := some { email := e, name := acct.name } }) := by
  have he := emailOf_generateToken e t hwf hcolon
  rw [verify_of_get_some users _ acct (generateToken_ne_nil e t) (by rw [he]; exact hreg), he]

/-- C1 (witness): the token of the registered email `b@x.com` verifies. -/
theorem verify_generateToken_witness :
    isWellFormed (lit "b@x.com") = true ∧ unit 58 ∉ lit "b@x.com" ∧
    exampleUsers.get (lit "b@x.com") = some exampleAccount ∧
    verify exampleUsers (some (generateToken (lit "b@x.com") 1704067200123)) =
      (exampleUsers, { status := 200, success := some true, valid := some true,
                       user := some { email := lit "b@x.com", name := lit "Bea" } }) :=
  ⟨by decide, by decide, by decide,
    verify_generateToken exampleUsers (lit "b@x.com") exampleAccount 1704067200123
      (by decide) (by decide) (by decide)⟩

/-- C1 (counterexample): after `a:b@x.com` has been registered by a login, a
token generated for `a:b@x.com` is answered 401 with `valid: false`, because
the verify handler looks up `a`. -/
theorem verify_generateToken_colon_counterexample :
    (run [] [Request.login (some (lit "a:b@x.com")) (some (lit "pw")) none
        (lit "2024-01-01T00:00:00.000Z") 1704067200000]).has (lit "a:b@x.com") = true ∧
    (verify (run [] [Request.login (some (lit "a:b@x.com")) (some (lit "pw")) none
        (lit "2024-01-01T00:00:00.000Z") 1704067200000])
      (some (generateToken (lit "a:b@x.com") 1704067200001))).2 =
      { status := 401, success := some false, valid := some false,
        message := some "Invalid token" } := by
  decide

/-- C2 (amended): for every well-formed email `e` (no unpaired surrogate) and
every timestamp `t`, decoding the token `generateToken(e)` issued at `t` gives
`e`, then `:`, then the decimal rendering of `t`. -/
theorem decodeToken_generateToken (e : JSString) (t : Int) (hwf : isWellFormed e = true) :
    decodeToken (generateToken e t) = Except.ok (e ++ lit ":" ++ numberToString t) := by
  simp only [decodeToken, decode_generateToken e t hwf]

/-- C2 (witness): the token of `b@x.com` issued at 1704067200123. -/
theorem decodeToken_generateToken_witness :
    isWellFormed (lit "b@x.com") = true ∧
    decodeToken (generateToken (lit "b@x.com") 1704067200123) =
      Except.ok (lit "b@x.com" ++ lit ":" ++ numberToString 1704067200123) :=
  ⟨by decide, decodeToken_generateToken (lit "b@x.com") 1704067200123 (by decide)⟩

/-- C2 (counterexample): for the email that consists of the unpaired
surrogate U+D800, the decoded token is U+FFFD followed by `:` and the time;
it does not start with the email followed by `:`. -/
theorem decodeToken_generateToken_surrogate_counterexample :
    decodeToken (generateToken [unit 0xD800] 1704067200000) =
      Except.ok (unit 0xFFFD :: lit ":1704067200000") ∧
    ¬ ([unit 0xD800] ++ lit ":") <+: (unit 0xFFFD :: lit ":1704067200000") :=
  ⟨rfl, by decide⟩

/-! ## C3, C4, C5: login -/

theorem login_provision_of_get_none (users : Users) (e p : JSString)
    (remember : Option JSValue) (nowIso : JSString) (nowMs : Int)
    (he : e ≠ []) (hp : p ≠ []) (h : users.get e = none) :
    login users (some e) (some p) remember nowIso nowMs =
      (users.set e { email := e, password := p, name := localPart e, createdAt := nowIso },
        { status := 200, success := some true,
          message := some "Login successful (demo mode)",
          token := some (generateToken e nowMs),
          user := some { email := e, name := localPart e } }) := by
  simp [login, isEmpty_eq_false he, isEmpty_eq_false hp, h]

theorem login_provision_of_wrong_password (users : Users) (e p : JSString) (acct : Account)
    (remember : Option JSValue) (nowIso : JSString) (nowMs : Int)
    (he : e ≠ []) (hp : p ≠ []) (h : users.get e = some acct) (hne : acct.password ≠ p) :
    login users (some e) (some p) remember nowIso nowMs =
      (users.set e { email := e, password := p, name := localPart e, createdAt := nowIso },
        { status := 200, success := some true,
          message := some "Login successful (demo mode)",
          token := some (generateToken e nowMs),
          user := some { email := e, name := localPart e } }) := by
  simp [login, isEmpty_eq_false he, isEmpty_eq_false hp, h, hne, Option.filter]

theorem login_of_password (users : Users) (e : JSString) (acct : Account)
    (remember : Option JSValue) (nowIso : JSString) (nowMs : Int)
    (he : e ≠ []) (hp : acct.password ≠ []) (h : users.get e = some acct) :
    login users (some e) (some acct.password) remember nowIso nowMs =
      (users, { status := 200, success := some true, message := some "Login successful",
                token := some (generateToken e nowMs),
                user := some { email := acct.email, name := acct.name,
                               createdAt := some acct.createdAt },
                rememberMe := remember }) := by
  simp [login, isEmpty_eq_false he, isEmpty_eq_false hp, h, Option.filter]

/-- C3: for every database and every login request with non-empty email and
password whose email is not registered, login answers 200, the database grows
by exactly one entry, it then holds under that email an account with the
supplied email and password, and every other entry is unchanged (the new
entry is appended to the old database). -/
theorem login_unregistered (users : Users) (e p : JSString) (remember : Option JSValue)
    (nowIso : JSString) (nowMs : Int) (he : e ≠ []) (hp : p ≠ [])
    (hun : users.has e = false) :
    (login users (some e) (some p) remember nowIso nowMs).2.status = 200 ∧
    (login users (some e) (some p) remember nowIso nowMs).1.size = users.size + 1 ∧
    (login users (some e) (some p) remember nowIso nowMs).1.get e =
      some { email := e, password := p, name := localPart e, createdAt := nowIso } ∧
    (∀ k, k ≠ e →
      (login users (some e) (some p) remember nowIso nowMs).1.get k = users.get k) ∧
    (login users (some e) (some p) remember nowIso nowMs).1 =
      users ++ [(e, { email := e, password := p, name := localPart e, createdAt := nowIso })] := by
  have hnone := (Users.has_eq_false_iff users e).1 hun
  rw [login_provision_of_get_none users e p remember nowIso nowMs he hp hnone]
  refine ⟨rfl, Users.size_set_of_not_has _ _ _ hun, Users.get_set_self _ _ _, ?_,
    Users.set_of_not_has _ _ _ hun⟩
  intro k hk
  exact Users.get_set_other _ _ _ k hk

/-- C3 (witness): the login `c@x.com` / `pw1` on a database that does not
hold `c@x.com`. -/
theorem login_unregistered_witness :
    lit "c@x.com" ≠ [] ∧ lit "pw1" ≠ [] ∧ exampleUsers.has (lit "c@x.com") = false ∧
    (login exampleUsers (some (lit "c@x.com")) (some (lit "pw1")) none (lit "T") 5).2.status = 200 ∧
    (login exampleUsers (some (lit "c@x.com")) (some (lit "pw1")) none (lit "T") 5).1.size = 2 :=
  have h := login_unregistered exampleUsers (lit "c@x.com") (lit "pw1") none (lit "T") 5
    (by decide) (by decide) (by decide)
  ⟨by decide, by decide, by decide, h.1, h.2.1⟩

/-- C4: for every database the server can hold that contains an account for
email `e`, a login with `e` and the stored password answers 200 with `user`
equal to the stored `email`, `name`, `createdAt` and `rememberMe` equal to the
`remember` of the request, and leaves the whole database unchanged. -/
theorem login_stored_password (users : Users) (e : JSString) (acct : Account)
    (remember : Option JSValue) (nowIso : JSString) (nowMs : Int)
    (hreach : Reachable users) (hreg : users.get e = some acct) :
    login users (some e) (some acct.password) remember nowIso nowMs =
      (users, { status := 200, success := some true, message := some "Login successful",
                token := some (generateToken e nowMs),
                user := some { email := acct.email, name := acct.name,
                               createdAt := some acct.createdAt },
                rememberMe := remember }) := by
  have hok := entriesOk_of_reachable hreach (e, acct) (Users.mem_of_get hreg)
  exact login_of_password users e acct remember nowIso nowMs hok.1 hok.2.1 hreg

/-- C4 (witness): login of `b@x.com` with the stored password, `remember`
set. -/
theorem login_stored_password_witness :
    Reachable exampleUsers ∧ exampleUsers.get (lit "b@x.com") = some exampleAccount ∧
    login exampleUsers (some (lit "b@x.com")) (some (lit "secret123"))
        (some (JSValue.bool true)) (lit "T") 5 =
      (exampleUsers, { status := 200, success := some true, message := some "Login successful",
                       token := some (generateToken (lit "b@x.com") 5),
                       user := some { email := lit "b@x.com", name := lit "Bea",
                                      createdAt := some (lit "2024-01-01T00:00:00.000Z") },
                       rememberMe := some (JSValue.bool true) }) :=
  ⟨exampleUsers_reachable, by decide,
    login_stored_password exampleUsers (lit "b@x.com") exampleAccount
      (some (JSValue.bool true)) (lit "T") 5 exampleUsers_reachable (by decide)⟩

/-- C5: for every database the server can hold that contains an account for
email `e` with stored password `p`, and every non-empty password `q` other
than `p`, login with `e` and `q` answers 200 and replaces the account at `e`
by one with password `q`, name the part of `e` before its first `@` and
`createdAt` the current time; the size, the keys and all other entries are
unchanged. -/
theorem login_other_password (users : Users) (e q : JSString) (acct : Account)
    (remember : Option JSValue) (nowIso : JSString) (nowMs : Int)
    (hreach : Reachable users) (hreg : users.get e = some acct)
    (hq : q ≠ []) (hne : q ≠ acct.password) :
    (login users (some e) (some q) remember nowIso nowMs).2.status = 200 ∧
    (login users (some e) (some q) remember nowIso nowMs).1.get e =
      some { email := e, password := q,
             name := e.takeWhile (fun c => c ≠ unit 64), createdAt := nowIso } ∧
    (login users (some e) (some q) remember nowIso nowMs).1.size = users.size ∧
    (login users (some e) (some q) remember nowIso nowMs).1.keys = users.keys ∧
    (∀ k, k ≠ e →
      (login users (some e) (some q) remember nowIso nowMs).1.get k = users.get k) := by
  have hok := entriesOk_of_reachable hreach (e, acct) (Users.mem_of_get hreg)
  rw [login_provision_of_wrong_password users e q acct remember nowIso nowMs hok.1 hq hreg
    (Ne.symm hne)]
  have hhas := Users.has_of_get hreg
  refine ⟨rfl, ?_, Users.size_set_of_has _ _ _ hhas, Users.keys_set_of_has _ _ _ hhas, ?_⟩
  · rw [Users.get_set_self, localPart_eq]
  · intro k hk
    exact Users.get_set_other _ _ _ k hk

/-- C5 (witness): login of `b@x.com` with the password `other`. -/
theorem login_other_password_witness :
    Reachable exampleUsers ∧ exampleUsers.get (lit "b@x.com") = some exampleAccount ∧
    lit "other" ≠ [] ∧ lit "other" ≠ exampleAccount.password ∧
    (login exampleUsers (some (lit "b@x.com")) (some (lit "other")) none (lit "T") 5).1.get
        (lit "b@x.com") =
      some { email := lit "b@x.com", password := lit "other",
             name := (lit "b@x.com").takeWhile (fun c => c ≠ unit 64), createdAt := lit "T" } :=
  ⟨exampleUsers_reachable, by decide, by decide, by decide,
    (login_other_password exampleUsers (lit "b@x.com") (lit "other") exampleAccount none
      (lit "T") 5 exampleUsers_reachable (by decide) (by decide) (by decide)).2.1⟩

/-! ## C6, C7: signup -/

theorem signup_of_short_password (users : Users) (n e p nowIso : JSString) (nowMs : Int)
    (nowIso2 : JSString) (hn : n ≠ []) (he : e ≠ []) (hp : p ≠ []) (hlen : p.length < 8) :
    signup users (some n) (some e) (some p) nowIso nowMs nowIso2 =
      (users, { status := 400, success := some false,
                message := some "Password must be at least 8 characters" }) := by
  simp [signup, isEmpty_eq_false hn, isEmpty_eq_false he, isEmpty_eq_false hp, hlen]

theorem signup_of_registered (users : Users) (n e p nowIso : JSString) (nowMs : Int)
    (nowIso2 : JSString) (hn : n ≠ []) (he : e ≠ []) (hlen : 8 ≤ p.length)
    (hreg : users.has e = true) :
    signup users (some n) (some e) (some p) nowIso nowMs nowIso2 =
      (users, { status := 409, success := some false,
                message := some "Email already registered" }) := by
  have hp : p ≠ [] := by
    intro h
    simp [h] at hlen
  have h8 : ¬ p.length < 8 := by omega
  simp [signup, isEmpty_eq_false hn, isEmpty_eq_false he, isEmpty_eq_false hp, h8, hreg]

theorem signup_of_unregistered (users : Users) (n e p nowIso : JSString) (nowMs : Int)
    (nowIso2 : JSString) (hn : n ≠ []) (he : e ≠ []) (hlen : 8 ≤ p.length)
    (hun : users.has e = false) :
    signup users (some n) (some e) (some p) nowIso nowMs nowIso2 =
      (users.set e { email := e, password := p, name := n, createdAt := nowIso },
        { status := 201, success := some true,
          message := some "Account created successfully",
          token := some (generateToken e nowMs),
          user := some { email := e, name := n, createdAt := some nowIso2 } }) := by
  have hp : p ≠ [] := by
    intro h
    simp [h] at hlen
  have h8 : ¬ p.length < 8 := by omega
  simp [signup, isEmpty_eq_false hn, isEmpty_eq_false he, isEmpty_eq_false hp, h8, hun]

/-- C6: for every signup request with non-empty name, email and password: a
password shorter than 8 gives status 400 and an unchanged database, whether
or not the email is registered; a password of length at least 8 with an
unregistered email gives status 201 and the account is stored with the
supplied name and password verbatim. Length 7 gives 400, length 8 gives
201. -/
theorem signup_password_length (users : Users) (n e p nowIso : JSString) (nowMs : Int)
    (nowIso2 : JSString) (hn : n ≠ []) (he : e ≠ []) (hp : p ≠ []) :
    (p.length < 8 →
      (signup users (some n) (some e) (some p) nowIso nowMs nowIso2).2.status = 400 ∧
      (signup users (some n) (some e) (some p) nowIso nowMs nowIso2).1 = users) ∧
    (8 ≤ p.length → users.has e = false →
      (signup users (some n) (some e) (some p) nowIso nowMs nowIso2).2.status = 201 ∧
      (signup users (some n) (some e) (some p) nowIso nowMs nowIso2).1.get e =
        some { email := e, password := p, name := n, createdAt := nowIso }) ∧
    (p.length = 7 →
      (signup users (some n) (some e) (some p) nowIso nowMs nowIso2).2.status = 400) ∧
    (p.length = 8 → users.has e = false →
      (signup users (some n) (some e) (some p) nowIso nowMs nowIso2).2.status = 201) := by
  refine ⟨?_, ?_, ?_, ?_⟩
  · intro hlen
    rw [signup_of_short_password users n e p nowIso nowMs nowIso2 hn he hp hlen]
    exact ⟨rfl, rfl⟩
  · intro hlen hun
    rw [signup_of_unregistered users n e p nowIso nowMs nowIso2 hn he hlen hun]
    exact ⟨rfl, Users.get_set_self _ _ _⟩
  · intro hlen
    rw [signup_of_short_password users n e p nowIso nowMs nowIso2 hn he hp (by omega)]
  · intro hlen hun
    rw [signup_of_unregistered users n e p nowIso nowMs nowIso2 hn he (by omega) hun]

/-- C6 (witness): on the database holding `b@x.com`, the seven-character
password `1234567` is refused for the registered `b@x.com`, and the
eight-character password `12345678` creates the unregistered `c@x.com`. -/
theorem signup_password_length_witness :
    (lit "Cy" ≠ [] ∧ lit "b@x.com" ≠ [] ∧ lit "1234567" ≠ [] ∧ (lit "1234567").length = 7 ∧
      (signup exampleUsers (some (lit "Cy")) (some (lit "b@x.com")) (some (lit "1234567"))
        (lit "T") 5 (lit "T")).2.status = 400) ∧
    (lit "c@x.com" ≠ [] ∧ lit "12345678" ≠ [] ∧ (lit "12345678").length = 8 ∧
      exampleUsers.has (lit "c@x.com") = false ∧
      (signup exampleUsers (some (lit "Cy")) (some (lit "c@x.com")) (some (lit "12345678"))
        (lit "T") 5 (lit "T")).2.status = 201) :=
  ⟨⟨by decide, by decide, by decide, by decide,
      (signup_password_length exampleUsers (lit "Cy") (lit "b@x.com") (lit "1234567") (lit "T")
        5 (lit "T") (by decide) (by decide) (by decide)).2.2.1 (by decide)⟩,
    ⟨by decide, by decide, by decide, by decide,
      (signup_password_length exampleUsers (lit "Cy") (lit "c@x.com") (lit "12345678") (lit "T")
        5 (lit "T") (by decide) (by decide) (by decide)).2.2.2 (by decide) (by decide)⟩⟩

/-- C7: for every database and every signup request with non-empty name and
email and a password of length at least 8 whose email is registered, signup
answers 409 and leaves the database unchanged. Two such signups with the same
email in a row on the empty database are answered 201 and then 409, and the
size of the database is 1 after each. -/
theorem signup_registered (users : Users) (n e p nowIso : JSString) (nowMs : Int)
    (nowIso2 : JSString) (hn : n ≠ []) (he : e ≠ []) (hlen : 8 ≤ p.length) :
    (users.has e = true →
      (signup users (some n) (some e) (some p) nowIso nowMs nowIso2).2.status = 409 ∧
      (signup users (some n) (some e) (some p) nowIso nowMs nowIso2).1 = users) ∧
    (∀ (n2 p2 nowIso3 : JSString) (nowMs2 : Int) (nowIso4 : JSString),
      n2 ≠ [] → 8 ≤ p2.length →
      (signup [] (some n) (some e) (some p) nowIso nowMs nowIso2).2.status = 201 ∧
      (signup [] (some n) (some e) (some p) nowIso nowMs nowIso2).1.size = 1 ∧
      (signup (signup [] (some n) (some e) (some p) nowIso nowMs nowIso2).1
        (some n2) (some e) (some p2) nowIso3 nowMs2 nowIso4).2.status = 409 ∧
      (signup (signup [] (some n) (some e) (some p) nowIso nowMs nowIso2).1
        (some n2) (some e) (some p2) nowIso3 nowMs2 nowIso4).1.size = 1 ∧
      (signup (signup [] (some n) (some e) (some p) nowIso nowMs nowIso2).1
        (some n2) (some e) (some p2) nowIso3 nowMs2 nowIso4).1.get e =
        some { email := e, password := p, name := n, createdAt := nowIso }) := by
  constructor
  · intro hreg
    rw [signup_of_registered users n e p nowIso nowMs nowIso2 hn he hlen hreg]
    exact ⟨rfl, rfl⟩
  · intro n2 p2 nowIso3 nowMs2 nowIso4 hn2 hlen2
    rw [signup_of_unregistered [] n e p nowIso nowMs nowIso2 hn he hlen rfl]
    have hreg : ∀ acct : Account, (Users.set [] e acct).has e = true := by
      intro acct
      simp [Users.has, Users.get_set_self]
    refine ⟨rfl, rfl, ?_⟩
    rw [signup_of_registered _ n2 e p2 nowIso3 nowMs2 nowIso4 hn2 he hlen2 (hreg _)]
    exact ⟨rfl, rfl, Users.get_set_self _ _ _⟩

/-- C7 (witness): a second signup for `b@x.com` on the database that holds
it is answered 409; on the empty database the signup of `b@x.com` is answered
201 and a second one 409, with one account stored. -/
theorem signup_registered_witness :
    (lit "Cy" ≠ [] ∧ lit "b@x.com" ≠ [] ∧ 8 ≤ (lit "12345678").length ∧
      exampleUsers.has (lit "b@x.com") = true ∧
      (signup exampleUsers (some (lit "Cy")) (some (lit "b@x.com")) (some (lit "12345678"))
        (lit "T") 5 (lit "T")).2.status = 409 ∧
      (signup exampleUsers (some (lit "Cy")) (some (lit "b@x.com")) (some (lit "12345678"))
        (lit "T") 5 (lit "T")).1 = exampleUsers) ∧
    (lit "Bea" ≠ [] ∧ 8 ≤ (lit "secret123").length ∧
      (signup [] (some (lit "Cy")) (some (lit "b@x.com")) (some (lit "12345678"))
        (lit "T") 5 (lit "T")).2.status = 201 ∧
      (signup (signup [] (some (lit "Cy")) (some (lit "b@x.com")) (some (lit "12345678"))
          (lit "T") 5 (lit "T")).1
        (some (lit "Bea")) (some (lit "b@x.com")) (some (lit "secret123"))
        (lit "U") 6 (lit "U")).2.status = 409 ∧
      (signup (signup [] (some (lit "Cy")) (some (lit "b@x.com")) (some (lit "12345678"))
          (lit "T") 5 (lit "T")).1
        (some (lit "Bea")) (some (lit "b@x.com")) (some (lit "secret123"))
        (lit "U") 6 (lit "U")).1.size = 1) :=
  have h := signup_registered exampleUsers (lit "Cy") (lit "b@x.com") (lit "12345678") (lit "T") 5
    (lit "T") (by decide) (by decide) (by decide)
  have h2 := h.2 (lit "Bea") (lit "secret123") (lit "U") 6 (lit "U") (by decide) (by decide)
  ⟨⟨by decide, by decide, by decide, by decide, h.1 (by decide)⟩,
    ⟨by decide, by decide, h2.1, h2.2.2.1, h2.2.2.2.1⟩⟩

/-! ## C8: stats after a sequence of requests -/

theorem keys_handle (users : Users) (r : Request) :
    (handle users r).1.keys =
      match successEmail r (handle users r).2 with
      | some e => if users.has e then users.keys else users.keys ++ [e]
      | none => users.keys := by
  cases r with
  | login email password remember nowIso nowMs =>
    cases email with
    | none => simp [handle, login, successEmail]
    | some e =>
      cases password with
      | none => simp [handle, login, successEmail]
      | some p =>
        by_cases he : e = []
        · simp [handle, login, successEmail, he]
        by_cases hp : p = []
        · simp [handle, login, successEmail, hp]
        cases hget : users.get e with
        | none =>
          have hun : users.has e = false := by simp [Users.has, hget]
          simp only [handle, login_provision_of_get_none users e p remember nowIso nowMs he hp hget,
            successEmail, if_true, hun, Bool.false_eq_true, if_false]
          exact Users.keys_set_of_not_has _ _ _ hun
        | some acct =>
          have hhas : users.has e = true := Users.has_of_get hget
          by_cases hpw : acct.password = p
          · subst hpw
            have hp2 : acct.password ≠ [] := hp
            simp only [handle, login_of_password users e acct remember nowIso nowMs he hp2 hget,
              successEmail, if_true, hhas]
          · simp only [handle,
              login_provision_of_wrong_password users e p acct remember nowIso nowMs he hp hget hpw,
              successEmail, if_true, hhas]
            exact Users.keys_set_of_has _ _ _ hhas
  | signup name email password nowIso nowMs nowIso2 =>
    cases name with
    | none => cases email <;> simp [handle, signup, successEmail]
    | some n =>
      cases email with
      | none => simp [handle, signup, successEmail]
      | some e =>
        cases password with
        | none => simp [handle, signup, successEmail]
        | some p =>
          by_cases he : e = []
          · simp [handle, signup, successEmail, he]
          by_cases hp : p = []
          · simp [handle, signup, successEmail, hp]
          by_cases hn : n = []
          · simp [handle, signup, successEmail, hn]
          by_cases hlen : p.length < 8
          · simp [handle, signup_of_short_password users n e p nowIso nowMs nowIso2 hn he hp hlen,
              successEmail]
          have h8 : 8 ≤ p.length := by omega
          cases hhas : users.has e with
          | true =>
            simp [handle, signup_of_registered users n e p nowIso nowMs nowIso2 hn he h8 hhas,
              successEmail]
          | false =>
            simp only [handle,
              signup_of_unregistered users n e p nowIso nowMs nowIso2 hn he h8 hhas,
              successEmail, if_true, hhas, Bool.false_eq_true, if_false]
            exact Users.keys_set_of_not_has _ _ _ hhas
  | verify token =>
    simp only [handle, verify, successEmail, decodeToken]
    split_ifs
    · rfl
    · split <;> rfl
  | logout => rfl
  | currentUser authorization =>
    simp only [handle, currentUser, successEmail, decodeToken]
    split_ifs
    · rfl
    · split <;> rfl
  | stats nowIso => rfl

theorem keys_handle_nodup (users : Users) (r : Request) (h : users.keys.Nodup) :
    (handle users r).1.keys.Nodup := by
  rw [keys_handle]
  split
  · rename_i e _
    split_ifs with hhas
    · exact h
    · have : e ∉ users.keys := fun hm => hhas ((Users.has_iff_mem_keys users e).2 hm)
      exact List.Nodup.append h (List.nodup_singleton e) (by simpa using this)
  · exact h

theorem mem_keys_handle (users : Users) (r : Request) (e : JSString) :
    e ∈ (handle users r).1.keys ↔
      e ∈ users.keys ∨ e ∈ (successEmail r (handle users r).2).toList := by
  rw [keys_handle]
  split
  · rename_i e2 heq
    rw [heq]
    split_ifs with hhas
    · have := (Users.has_iff_mem_keys users e2).1 hhas
      constructor
      · intro h; exact Or.inl h
      · rintro (h | h)
        · exact h
        · simp only [Option.toList, List.mem_singleton] at h
          rw [h]; exact this
    · simp [Option.toList]
  · rename_i heq
    rw [heq]
    simp [Option.toList]

theorem keys_run (users : Users) (rs : List Request) (h : users.keys.Nodup) :
    (run users rs).keys.Nodup ∧
    ∀ e, e ∈ (run users rs).keys ↔ e ∈ users.keys ∨ e ∈ successEmails users rs := by
  induction rs generalizing users with
  | nil => simp [run, successEmails, h]
  | cons r rs ih =>
    obtain ⟨h1, h2⟩ := ih (handle users r).1 (keys_handle_nodup users r h)
    refine ⟨h1, ?_⟩
    intro e
    simp only [run, successEmails, List.mem_append]
    rw [h2 e, mem_keys_handle users r e]
    tauto

/-- C8: for every finite sequence of handler requests served from the empty
database, the `totalUsers` that stats then returns is the number of distinct
emails of the login requests answered 200 and the signup requests answered
201 in the sequence, and `registeredEmails` lists exactly those emails, each
once. -/
theorem stats_after_requests (rs : List Request) (nowIso : JSString) :
    (stats (run [] rs) nowIso).2.totalUsers = some (successEmails [] rs).toFinset.card ∧
    ∃ ks : List JSString,
      (stats (run [] rs) nowIso).2.registeredEmails = some ks ∧ ks.Nodup ∧
      ∀ e, e ∈ ks ↔ e ∈ successEmails [] rs := by
  obtain ⟨h1, h2⟩ := keys_run [] rs (by simp [Users.keys])
  have h3 : ∀ e, e ∈ (run [] rs).keys ↔ e ∈ successEmails [] rs := by
    intro e
    rw [h2 e]
    simp [Users.keys]
  refine ⟨?_, (run [] rs).keys, rfl, h1, h3⟩
  simp only [stats, Users.size, Option.some.injEq]
  have hcard : (run [] rs).keys.toFinset.card = (run [] rs).keys.length :=
    List.toFinset_card_of_nodup h1
  have hset : (run [] rs).keys.toFinset = (successEmails [] rs).toFinset := by
    ext e
    simp [h3 e]
  rw [← hset, hcard]
  simp [Users.keys]

/-! ## C9, C10: verify and the current user -/

theorem currentUser_of_get_some (users : Users) (header : JSString) (acct : Account)
    (ht : replace (lit "Bearer ") [] header ≠ [])
    (h : users.get (emailOf (utf8Decode (base64Decode (replace (lit "Bearer ") [] header))))
      = some acct) :
    currentUser users (some header) =
      (users, { status := 200, success := some true,
                user := some { email := acct.email, name := acct.name,
                               createdAt := some acct.createdAt } }) := by
  simp [currentUser, falsy, isEmpty_eq_false ht, decodeToken, h]

theorem currentUser_of_get_none (users : Users) (header : JSString)
    (ht : replace (lit "Bearer ") [] header ≠ [])
    (h : users.get (emailOf (utf8Decode (base64Decode (replace (lit "Bearer ") [] header))))
      = none) :
    currentUser users (some header) =
      (users, { status := 404, success := some false, message := some "User not found" }) := by
  simp [currentUser, falsy, isEmpty_eq_false ht, decodeToken, h]

theorem currentUser_of_empty (users : Users) (header : JSString)
    (ht : replace (lit "Bearer ") [] header = []) :
    currentUser users (some header) =
      (users, { status := 401, success := some false, message := some "No token provided" }) := by
  simp [currentUser, falsy, ht]

/-- C9 (amended): for every database and every non-empty token string, verify
answers 200 with `valid: true` exactly when the part of the decoded token
before its first `:` (all of it when it has no `:`) is a registered email, and
401 with `valid: false` otherwise; an absent or empty token is answered 400.
A token generated for a well-formed email without `:` that is not registered
is answered 401 with `valid: false`. -/
theorem verify_by_registration (users : Users) (token : JSString) (ht : token ≠ []) :
    (((verify users (some token)).2.status = 200 ∧
        (verify users (some token)).2.valid = some true) ↔
      users.has ((utf8Decode (base64Decode token)).takeWhile (fun c => c ≠ unit 58)) = true) ∧
    (users.has ((utf8Decode (base64Decode token)).takeWhile (fun c => c ≠ unit 58)) = false →
      (verify users (some token)).2.status = 401 ∧
      (verify users (some token)).2.valid = some false) ∧
    (verify users none).2.status = 400 ∧
    (verify users (some [])).2.status = 400 ∧
    (∀ (e : JSString) (t : Int), isWellFormed e = true → unit 58 ∉ e → users.has e = false →
      (verify users (some (generateToken e t))).2.status = 401 ∧
      (verify users (some (generateToken e t))).2.valid = some false) := by
  rw [← emailOf_eq]
  refine ⟨?_, ?_, rfl, rfl, ?_⟩
  · cases hget : users.get (emailOf (utf8Decode (base64Decode token))) with
    | none =>
      rw [verify_of_get_none users token ht hget]
      simp [Users.has, hget]
    | some acct =>
      rw [verify_of_get_some users token acct ht hget]
      simp [Users.has, hget]
  · intro hun
    rw [verify_of_get_none users token ht ((Users.has_eq_false_iff _ _).1 hun)]
    exact ⟨rfl, rfl⟩
  · intro e t hwf hcolon hun
    rw [verify_of_get_none users _ (generateToken_ne_nil e t)
      (by rw [emailOf_generateToken e t hwf hcolon]; exact (Users.has_eq_false_iff _ _).1 hun)]
    exact ⟨rfl, rfl⟩

/-- C9 (witness): on the database holding `b@x.com`, the token of `b@x.com`
is answered 200 with `valid: true`, and the token of the unregistered
`c@x.com` is answered 401 with `valid: false`. -/
theorem verify_by_registration_witness :
    (generateToken (lit "b@x.com") 7 ≠ [] ∧
      exampleUsers.has ((utf8Decode (base64Decode (generateToken (lit "b@x.com") 7))).takeWhile
        (fun c => c ≠ unit 58)) = true ∧
      (verify exampleUsers (some (generateToken (lit "b@x.com") 7))).2.status = 200 ∧
      (verify exampleUsers (some (generateToken (lit "b@x.com") 7))).2.valid = some true) ∧
    (isWellFormed (lit "c@x.com") = true ∧
      unit 58 ∉ lit "c@x.com" ∧ exampleUsers.has (lit "c@x.com") = false ∧
      (verify exampleUsers (some (generateToken (lit "c@x.com") 7))).2.status = 401 ∧
      (verify exampleUsers (some (generateToken (lit "c@x.com") 7))).2.valid = some false) :=
  have h := verify_by_registration exampleUsers (generateToken (lit "b@x.com") 7) (by decide)
  ⟨⟨by decide, by decide, h.1.2 (by decide)⟩,
    ⟨by decide, by decide, by decide,
      h.2.2.2.2 (lit "c@x.com") 7 (by decide) (by decide) (by decide)⟩⟩

/-- C9 (counterexample): after only `a` has been registered, the email
`a:b@x.com` was never registered, yet a token generated for it is answered 200
with `valid: true` (for the user `a`). -/
theorem verify_unregistered_colon_counterexample :
    (run [] [Request.login (some (lit "a")) (some (lit "pw")) none
        (lit "2024-01-01T00:00:00.000Z") 1704067200000]).has (lit "a:b@x.com") = false ∧
    (verify (run [] [Request.login (some (lit "a")) (some (lit "pw")) none
        (lit "2024-01-01T00:00:00.000Z") 1704067200000])
      (some (generateToken (lit "a:b@x.com") 1704067200001))).2 =
      { status := 200, success := some true, valid := some true,
        user := some { email := lit "a", name := lit "a" } } := by
  decide

/-- C10: for every database and every value of the Authorization header:
currentUser answers 401 when the header is absent or is empty once `Bearer `
is removed; otherwise, when the part of the decoded token before its first
`:` is a registered email, it answers 200 with `user` equal to the `email`,
`name` and `createdAt` stored for that email; otherwise it answers 404. The
database is never changed. -/
theorem currentUser_by_registration (users : Users) (header : JSString) :
    (currentUser users none).2.status = 401 ∧
    (replace (lit "Bearer ") [] header = [] →
      (currentUser users (some header)).2.status = 401) ∧
    (replace (lit "Bearer ") [] header ≠ [] →
      ∀ acct : Account,
        users.get ((utf8Decode (base64Decode (replace (lit "Bearer ") [] header))).takeWhile
          (fun c => c ≠ unit 58)) = some acct →
        (currentUser users (some header)).2.status = 200 ∧
        (currentUser users (some header)).2.user =
          some { email := acct.email, name := acct.name, createdAt := some acct.createdAt }) ∧
    (replace (lit "Bearer ") [] header ≠ [] →
      users.has ((utf8Decode (base64Decode (replace (lit "Bearer ") [] header))).takeWhile
          (fun c => c ≠ unit 58)) = false →
        (currentUser users (some header)).2.status = 404) ∧
    (currentUser users none).1 = users ∧ (currentUser users (some header)).1 = users := by
  rw [← emailOf_eq]
  refine ⟨rfl, ?_, ?_, ?_, rfl, ?_⟩
  · intro h
    rw [currentUser_of_empty users header h]
  · intro h acct hget
    rw [currentUser_of_get_some users header acct h hget]
    exact ⟨rfl, rfl⟩
  · intro h hun
    rw [currentUser_of_get_none users header h ((Users.has_eq_false_iff _ _).1 hun)]
  · by_cases h : replace (lit "Bearer ") [] header = []
    · rw [currentUser_of_empty users header h]
    · cases hget : users.get (emailOf (utf8Decode (base64Decode
          (replace (lit "Bearer ") [] header)))) with
      | none => rw [currentUser_of_get_none users header h hget]
      | some acct => rw [currentUser_of_get_some users header acct h hget]

/-- C10 (witness): on the database holding `b@x.com`, the header `Bearer `
alone is answered 401, the header `Bearer ` followed by a token of `b@x.com`
is answered 200 with the stored fields, and the header `Bearer ` followed by a
token of the unregistered `c@x.com` is answered 404. -/
theorem currentUser_by_registration_witness :
    (replace (lit "Bearer ") [] (lit "Bearer ") = [] ∧
      (currentUser exampleUsers (some (lit "Bearer "))).2.status = 401) ∧
    (replace (lit "Bearer ") [] (lit "Bearer " ++ generateToken (lit "b@x.com") 7) ≠ [] ∧
      exampleUsers.get ((utf8Decode (base64Decode (replace (lit "Bearer ") []
          (lit "Bearer " ++ generateToken (lit "b@x.com") 7)))).takeWhile
          (fun c => c ≠ unit 58)) = some exampleAccount ∧
      (currentUser exampleUsers
          (some (lit "Bearer " ++ generateToken (lit "b@x.com") 7))).2.status = 200 ∧
      (currentUser exampleUsers
          (some (lit "Bearer " ++ generateToken (lit "b@x.com") 7))).2.user =
        some { email := lit "b@x.com", name := lit "Bea",
               createdAt := some (lit "2024-01-01T00:00:00.000Z") }) ∧
    (replace (lit "Bearer ") [] (lit "Bearer " ++ generateToken (lit "c@x.com") 7) ≠ [] ∧
      exampleUsers.has ((utf8Decode (base64Decode (replace (lit "Bearer ") []
          (lit "Bearer " ++ generateToken (lit "c@x.com") 7)))).takeWhile
          (fun c => c ≠ unit 58)) = false ∧
      (currentUser exampleUsers
          (some (lit "Bearer " ++ generateToken (lit "c@x.com") 7))).2.status = 404) :=
  ⟨⟨by decide, (currentUser_by_registration exampleUsers (lit "Bearer ")).2.1 (by decide)⟩,
    ⟨by decide, by decide,
      (currentUser_by_registration exampleUsers
        (lit "Bearer " ++ generateToken (lit "b@x.com") 7)).2.2.1 (by decide)
        exampleAccount (by decide)⟩,
    ⟨by decide, by decide,
      (currentUser_by_registration exampleUsers
        (lit "Bearer " ++ generateToken (lit "c@x.com") 7)).2.2.2.1 (by decide) (by decide)⟩⟩

/-! ## C11, C12, C14: what happens to stored accounts -/

/-- C11 (code at the failing input): on the database holding `b@x.com` with
password `secret123`, name `Bea` and `createdAt` 2024-01-01, a login with
`b@x.com` and the password `other` is answered 200 and the account stored
for `b@x.com` afterwards has the password `other`, the name `b` and the
`createdAt` of the login: none of the three fields is as before the call. -/
theorem login_wrong_password_overwrites_account :
    exampleUsers.get (lit "b@x.com") =
      some { email := lit "b@x.com", password := lit "secret123", name := lit "Bea",
             createdAt := lit "2024-01-01T00:00:00.000Z" } ∧
    (login exampleUsers (some (lit "b@x.com")) (some (lit "other")) none
      (lit "2024-06-01T00:00:00.000Z") 1717200000000).2.status = 200 ∧
    (login exampleUsers (some (lit "b@x.com")) (some (lit "other")) none
      (lit "2024-06-01T00:00:00.000Z") 1717200000000).1.get (lit "b@x.com") =
      some { email := lit "b@x.com", password := lit "other", name := lit "b",
             createdAt := lit "2024-06-01T00:00:00.000Z" } := by
  decide

theorem has_handle (users : Users) (r : Request) (e : JSString) (h : users.has e = true) :
    (handle users r).1.has e = true := by
  rw [Users.has_iff_mem_keys] at h ⊢
  exact (mem_keys_handle users r e).2 (Or.inl h)

theorem size_le_handle (users : Users) (r : Request) :
    users.size ≤ (handle users r).1.size := by
  have h := congrArg List.length (keys_handle users r)
  have e1 : ∀ u : Users, u.keys.length = u.size := fun u => by simp [Users.keys, Users.size]
  rw [e1] at h
  rw [h]
  split
  · split_ifs
    · rw [e1]
    · rw [List.length_append, e1]
      omega
  · rw [e1]

theorem has_run (users : Users) (rs : List Request) (e : JSString) (h : users.has e = true) :
    (run users rs).has e = true := by
  induction rs generalizing users with
  | nil => exact h
  | cons r rs ih => exact ih _ (has_handle users r e h)

theorem size_le_run (users : Users) (rs : List Request) : users.size ≤ (run users rs).size := by
  induction rs generalizing users with
  | nil => exact Nat.le_refl _
  | cons r rs ih => exact Nat.le_trans (size_le_handle users r) (ih _)

/-- C12: for every handler, every input and every database, each email
registered before the call is still registered after it, and the size of the
database does not decrease; the same holds along every sequence of requests. -/
theorem accounts_never_deleted (users : Users) (r : Request) (e : JSString)
    (h : users.has e = true) :
    (handle users r).1.has e = true ∧
    users.size ≤ (handle users r).1.size ∧
    ∀ rs : List Request, (run users rs).has e = true ∧ users.size ≤ (run users rs).size :=
  ⟨has_handle users r e h, size_le_handle users r,
    fun rs => ⟨has_run users rs e h, size_le_run users rs⟩⟩

/-- C12 (witness): `b@x.com` stays registered through a login that replaces
its account, and through a logout followed by a signup of `c@x.com`. -/
theorem accounts_never_deleted_witness :
    exampleUsers.has (lit "b@x.com") = true ∧
    (handle exampleUsers (Request.login (some (lit "b@x.com")) (some (lit "other")) none
      (lit "T") 5)).1.has (lit "b@x.com") = true ∧
    (run exampleUsers [Request.logout,
      Request.signup (some (lit "Cy")) (some (lit "c@x.com")) (some (lit "12345678"))
        (lit "T") 5 (lit "T")]).has (lit "b@x.com") = true ∧
    exampleUsers.size ≤ (run exampleUsers [Request.logout,
      Request.signup (some (lit "Cy")) (some (lit "c@x.com")) (some (lit "12345678"))
        (lit "T") 5 (lit "T")]).size :=
  have h := accounts_never_deleted exampleUsers
    (Request.login (some (lit "b@x.com")) (some (lit "other")) none (lit "T") 5)
    (lit "b@x.com") (by decide)
  ⟨by decide, h.1, (h.2.2 _).1, (h.2.2 _).2⟩

/-- C14: for every database, logout answers 200 with `success: true` and
leaves the database unchanged: the same entries, so the same size and the same
account under every key. -/
theorem logout_unchanged (users : Users) :
    logout users =
      (users, { status := 200, success := some true,
                message := some "Logged out successfully" }) ∧
    (logout users).1.size = users.size ∧
    (∀ k, (logout users).1.get k = users.get k) ∧
    (handle users Request.logout).1 = users :=
  ⟨rfl, rfl, fun _ => rfl, rfl⟩

/-! ## C13: decoding a token -/

/-- C13 (amended): for every token string, well-formed base64 or not, with or
without `:`, the decode step returns a string (the base64 and UTF-8 decoders
are total and `split(':')[0]` is the part before the first `:`), so verify
and currentUser never answer from their `catch` branch; and for every
non-empty token whose decoded prefix is not registered, verify answers 401
and currentUser answers 404. -/
theorem decodeToken_never_fails (users : Users) (token : JSString) :
    decodeToken token = Except.ok (utf8Decode (base64Decode token)) ∧
    first (split (unit 58) (utf8Decode (base64Decode token))) =
      some ((utf8Decode (base64Decode token)).takeWhile (fun c => c ≠ unit 58)) ∧
    (verify users (some token)).2.message ≠ some "Token verification failed" ∧
    (∀ header : JSString,
      (currentUser users (some header)).2.message ≠ some "Invalid token") ∧
    (token ≠ [] →
      users.has ((utf8Decode (base64Decode token)).takeWhile (fun c => c ≠ unit 58)) = false →
      (verify users (some token)).2.status = 401 ∧
      ∀ header : JSString, replace (lit "Bearer ") [] header = token →
        (currentUser users (some header)).2.status = 404) := by
  refine ⟨rfl, first_split _ _, ?_, ?_, ?_⟩
  · by_cases ht : token = []
    · subst ht
      simp [verify, falsy]
    · cases hget : users.get (emailOf (utf8Decode (base64Decode token))) with
      | none =>
        rw [verify_of_get_none users token ht hget]
        simp
      | some acct =>
        rw [verify_of_get_some users token acct ht hget]
        simp
  · intro header
    by_cases ht : replace (lit "Bearer ") [] header = []
    · rw [currentUser_of_empty users header ht]
      simp
    · cases hget : users.get (emailOf (utf8Decode (base64Decode
          (replace (lit "Bearer ") [] header)))) with
      | none =>
        rw [currentUser_of_get_none users header ht hget]
        simp
      | some acct =>
        rw [currentUser_of_get_some users header acct ht hget]
        simp
  · intro ht hun
    rw [← emailOf_eq] at hun
    have hnone := (Users.has_eq_false_iff _ _).1 hun
    refine ⟨?_, ?_⟩
    · rw [verify_of_get_none users token ht hnone]
    · intro header hh
      subst hh
      rw [currentUser_of_get_none users header ht hnone]

/-- C13 (witness): the token `aGVsbG8=` decodes to `hello`, which has no
`:`; on the database holding `b@x.com` verify answers it with 401 and
currentUser, for the header `Bearer aGVsbG8=`, with 404. -/
theorem decodeToken_never_fails_witness :
    lit "aGVsbG8=" ≠ [] ∧
    utf8Decode (base64Decode (lit "aGVsbG8=")) = lit "hello" ∧
    exampleUsers.has ((utf8Decode (base64Decode (lit "aGVsbG8="))).takeWhile
      (fun c => c ≠ unit 58)) = false ∧
    replace (lit "Bearer ") [] (lit "Bearer aGVsbG8=") = lit "aGVsbG8=" ∧
    (verify exampleUsers (some (lit "aGVsbG8="))).2.status = 401 ∧
    (currentUser exampleUsers (some (lit "Bearer aGVsbG8="))).2.status = 404 :=
  have h := (decodeToken_never_fails exampleUsers (lit "aGVsbG8=")).2.2.2.2
    (by decide) (by decide)
  ⟨by decide, by decide, by decide, by decide, h.1, h.2 (lit "Bearer aGVsbG8=") (by decide)⟩

/-- C13 (counterexample): the empty token decodes to the empty string, which
is not registered in the database holding `b@x.com`, yet verify answers it
with 400 (not 401) and currentUser, for the header `Bearer `, with
401 (not 404). -/
theorem empty_token_counterexample :
    exampleUsers.has ((utf8Decode (base64Decode [])).takeWhile (fun c => c ≠ unit 58)) = false ∧
    (verify exampleUsers (some [])).2.status = 400 ∧
    replace (lit "Bearer ") [] (lit "Bearer ") = [] ∧
    (currentUser exampleUsers (some (lit "Bearer "))).2.status = 401 := by
  decide

/-! ## C15, C16: the user object of a response -/

theorem login_of_demo_message (users : Users) (email password : Option JSString)
    (remember : Option JSValue) (nowIso : JSString) (nowMs : Int)
    (h : (login users email password remember nowIso nowMs).2.message =
      some "Login successful (demo mode)") :
    ∃ e p, email = some e ∧ password = some p ∧
      login users email password remember nowIso nowMs =
        (users.set e { email := e, password := p, name := localPart e, createdAt := nowIso },
          { status := 200, success := some true,
            message := some "Login successful (demo mode)",
            token := some (generateToken e nowMs),
            user := some { email := e, name := localPart e } }) := by
  cases email with
  | none => simp [login] at h
  | some e =>
    cases password with
    | none => simp [login] at h
    | some p =>
      refine ⟨e, p, rfl, rfl, ?_⟩
      simp only [login] at h ⊢
      split_ifs at h ⊢ with hc
      · simp at h
      · split at h
        · simp at h
        · rfl

/-- C15: for every login answered by the auto-provision branch, with email
`e`, the account stored for `e` has as name the part of `e` before its first
`@` (all of `e` when it has no `@`), and the name in the response is the
stored name. -/
theorem login_provision_name (users : Users) (email password : Option JSString)
    (remember : Option JSValue) (nowIso : JSString) (nowMs : Int)
    (h : (login users email password remember nowIso nowMs).2.message =
      some "Login successful (demo mode)") :
    ∃ e acct, email = some e ∧
      (login users email password remember nowIso nowMs).1.get e = some acct ∧
      acct.name = e.takeWhile (fun c => c ≠ unit 64) ∧
      (login users email password remember nowIso nowMs).2.user =
        some { email := e, name := acct.name } := by
  obtain ⟨e, p, he, _, hl⟩ := login_of_demo_message users email password remember nowIso nowMs h
  refine ⟨e, { email := e, password := p, name := localPart e, createdAt := nowIso }, he, ?_,
    localPart_eq e, ?_⟩
  · rw [hl]
    exact Users.get_set_self _ _ _
  · rw [hl]

/-- C15 (witness): the login `c@x.com` / `pw1` on the database that holds
only `b@x.com` is answered by the auto-provision branch; the stored and the
returned name are `c`. -/
theorem login_provision_name_witness :
    (login exampleUsers (some (lit "c@x.com")) (some (lit "pw1")) none (lit "T") 5).2.message =
      some "Login successful (demo mode)" ∧
    (lit "c@x.com").takeWhile (fun c => c ≠ unit 64) = lit "c" ∧
    ∃ e acct, some (lit "c@x.com") = some e ∧
      (login exampleUsers (some (lit "c@x.com")) (some (lit "pw1")) none (lit "T") 5).1.get e =
        some acct ∧
      acct.name = e.takeWhile (fun c => c ≠ unit 64) ∧
      (login exampleUsers (some (lit "c@x.com")) (some (lit "pw1")) none (lit "T") 5).2.user =
        some { email := e, name := acct.name } :=
  ⟨by decide, by decide,
    login_provision_name exampleUsers (some (lit "c@x.com")) (some (lit "pw1")) none (lit "T") 5
      (by decide)⟩

theorem signup_of_created (users : Users) (name email password : Option JSString)
    (nowIso : JSString) (nowMs : Int) (nowIso2 : JSString)
    (h : (signup users name email password nowIso nowMs nowIso2).2.status = 201) :
    ∃ n e p, name = some n ∧ email = some e ∧ password = some p ∧ users.has e = false ∧
      signup users name email password nowIso nowMs nowIso2 =
        (users.set e { email := e, password := p, name := n, createdAt := nowIso },
          { status := 201, success := some true,
            message := some "Account created successfully",
            token := some (generateToken e nowMs),
            user := some { email := e, name := n, createdAt := some nowIso2 } }) := by
  cases name with
  | none => cases email <;> simp [signup] at h
  | some n =>
    cases email with
    | none => simp [signup] at h
    | some e =>
      cases password with
      | none => simp [signup] at h
      | some p =>
        simp only [signup] at h ⊢
        split_ifs at h ⊢ with h1 h2 h3
        · simp at h
        · simp at h
        · simp at h
        · exact ⟨n, e, p, rfl, rfl, rfl, by simpa using h3, rfl⟩

/-- The user object of a signup answered 201 against the stored account: the
email and the name are the stored ones, the stored `createdAt` is the first
clock reading and the returned one is the later reading. -/
theorem signup_created_user (users : Users) (name email password : Option JSString)
    (nowIso : JSString) (nowMs : Int) (nowIso2 : JSString)
    (h : (signup users name email password nowIso nowMs nowIso2).2.status = 201) :
    ∃ e acct, email = some e ∧
      (signup users name email password nowIso nowMs nowIso2).1.get e = some acct ∧
      acct.createdAt = nowIso ∧
      (signup users name email password nowIso nowMs nowIso2).2.user =
        some { email := acct.email, name := acct.name, createdAt := some nowIso2 } := by
  obtain ⟨n, e, p, _, he, _, _, hs⟩ :=
    signup_of_created users name email password nowIso nowMs nowIso2 h
  refine ⟨e, { email := e, password := p, name := n, createdAt := nowIso }, he, ?_, rfl, ?_⟩
  · rw [hs]
    exact Users.get_set_self _ _ _
  · rw [hs]

/-- C16 (code at the failing input): a signup of `b@x.com` on the empty
database during which the clock moves from `...00.000Z` to `...00.001Z` is
answered 201 with `createdAt` `...00.001Z`, while the account it stored has
`createdAt` `...00.000Z`, which is also what currentUser reports for a token
of that account. -/
theorem signup_createdAt_differs_from_stored :
    (signup [] (some (lit "Bea")) (some (lit "b@x.com")) (some (lit "secret123"))
      (lit "2024-01-01T00:00:00.000Z") 1704067200000
      (lit "2024-01-01T00:00:00.001Z")).2.status = 201 ∧
    (signup [] (some (lit "Bea")) (some (lit "b@x.com")) (some (lit "secret123"))
      (lit "2024-01-01T00:00:00.000Z") 1704067200000
      (lit "2024-01-01T00:00:00.001Z")).2.user =
      some { email := lit "b@x.com", name := lit "Bea",
             createdAt := some (lit "2024-01-01T00:00:00.001Z") } ∧
    (signup [] (some (lit "Bea")) (some (lit "b@x.com")) (some (lit "secret123"))
      (lit "2024-01-01T00:00:00.000Z") 1704067200000
      (lit "2024-01-01T00:00:00.001Z")).1.get (lit "b@x.com") =
      some { email := lit "b@x.com", password := lit "secret123", name := lit "Bea",
             createdAt := lit "2024-01-01T00:00:00.000Z" } ∧
    (currentUser
      (signup [] (some (lit "Bea")) (some (lit "b@x.com")) (some (lit "secret123"))
        (lit "2024-01-01T00:00:00.000Z") 1704067200000
        (lit "2024-01-01T00:00:00.001Z")).1
      (some (lit "Bearer " ++ generateToken (lit "b@x.com") 1704067200000))).2.user =
      some { email := lit "b@x.com", name := lit "Bea",
             createdAt := some (lit "2024-01-01T00:00:00.000Z") } := by
  decide

/-! ## C17, C18: key and field, and what changes the database -/

/-- C17: in every database reachable from the empty one by a sequence of
handler requests, each account stored under key `k` has `email` equal to `k`;
so whenever currentUser reports a user, the reported email is the email
decoded from the token (the part of the decoded token before its first
`:`). -/
theorem reachable_email_eq_key (users : Users) (hreach : Reachable users) :
    (∀ (k : JSString) (acct : Account), users.get k = some acct → acct.email = k) ∧
    (∀ (header : JSString) (u : UserView),
      (currentUser users (some header)).2.user = some u →
      u.email = (utf8Decode (base64Decode (replace (lit "Bearer ") [] header))).takeWhile
        (fun c => c ≠ unit 58)) := by
  have hok := entriesOk_of_reachable hreach
  have hkey : ∀ (k : JSString) (acct : Account), users.get k = some acct → acct.email = k :=
    fun k acct hget => (hok (k, acct) (Users.mem_of_get hget)).2.2
  refine ⟨hkey, ?_⟩
  intro header u hu
  rw [← emailOf_eq]
  by_cases ht : replace (lit "Bearer ") [] header = []
  · rw [currentUser_of_empty users header ht] at hu
    simp at hu
  · cases hget : users.get (emailOf (utf8Decode (base64Decode
        (replace (lit "Bearer ") [] header)))) with
    | none =>
      rw [currentUser_of_get_none users header ht hget] at hu
      simp at hu
    | some acct =>
      rw [currentUser_of_get_some users header acct ht hget] at hu
      simp only [Option.some.injEq] at hu
      rw [← hu]
      exact hkey _ acct hget

/-- C17 (witness): in the database holding `b@x.com` the stored `email` is
the key, and currentUser reports `b@x.com` for a token of `b@x.com`. -/
theorem reachable_email_eq_key_witness :
    Reachable exampleUsers ∧
    exampleUsers.get (lit "b@x.com") = some exampleAccount ∧
    exampleAccount.email = lit "b@x.com" ∧
    (currentUser exampleUsers
      (some (lit "Bearer " ++ generateToken (lit "b@x.com") 7))).2.user =
      some { email := lit "b@x.com", name := lit "Bea",
             createdAt := some (lit "2024-01-01T00:00:00.000Z") } ∧
    lit "b@x.com" =
      (utf8Decode (base64Decode (replace (lit "Bearer ") []
        (lit "Bearer " ++ generateToken (lit "b@x.com") 7)))).takeWhile
        (fun c => c ≠ unit 58) :=
  have h := reachable_email_eq_key exampleUsers exampleUsers_reachable
  ⟨exampleUsers_reachable, by decide, h.1 (lit "b@x.com") exampleAccount (by decide), by decide,
    h.2 (lit "Bearer " ++ generateToken (lit "b@x.com") 7)
      { email := lit "b@x.com", name := lit "Bea",
        createdAt := some (lit "2024-01-01T00:00:00.000Z") } (by decide)⟩

theorem login_unchanged_of_message (users : Users) (email password : Option JSString)
    (remember : Option JSValue) (nowIso : JSString) (nowMs : Int)
    (h : (login users email password remember nowIso nowMs).2.message ≠
      some "Login successful (demo mode)") :
    (login users email password remember nowIso nowMs).1 = users := by
  cases email with
  | none => simp [login]
  | some e =>
    cases password with
    | none => simp [login]
    | some p =>
      simp only [login] at h ⊢
      split_ifs at h ⊢ with hc
      · rfl
      · split at h
        · rfl
        · simp at h

theorem signup_unchanged_of_status (users : Users) (name email password : Option JSString)
    (nowIso : JSString) (nowMs : Int) (nowIso2 : JSString)
    (h : (signup users name email password nowIso nowMs nowIso2).2.status ≠ 201) :
    (signup users name email password nowIso nowMs nowIso2).1 = users := by
  cases name with
  | none => cases email <;> simp [signup]
  | some n =>
    cases email with
    | none => simp [signup]
    | some e =>
      cases password with
      | none => simp [signup]
      | some p =>
        simp only [signup] at h ⊢
        split_ifs at h ⊢ with h1 h2 h3
        · rfl
        · rfl
        · rfl
        · simp at h

theorem verify_unchanged (users : Users) (token : Option JSString) :
    (verify users token).1 = users := by
  simp only [verify, decodeToken]
  split_ifs
  · rfl
  · split <;> rfl

theorem currentUser_unchanged (users : Users) (authorization : Option JSString) :
    (currentUser users authorization).1 = users := by
  simp only [currentUser, decodeToken]
  split_ifs
  · rfl
  · split <;> rfl

/-- C18: verify, currentUser and stats leave the database exactly as it was
on every input, and so does every login or signup request answered with a 4xx
status; a request that changes the database is a login answered by the
auto-provision branch or a signup answered 201. -/
theorem database_changes_only_by_provision_or_signup (users : Users) :
    (∀ token, (verify users token).1 = users) ∧
    (∀ authorization, (currentUser users authorization).1 = users) ∧
    (∀ nowIso, (stats users nowIso).1 = users) ∧
    (∀ email password remember nowIso nowMs,
      400 ≤ (login users email password remember nowIso nowMs).2.status →
      (login users email password remember nowIso nowMs).1 = users) ∧
    (∀ name email password nowIso nowMs nowIso2,
      400 ≤ (signup users name email password nowIso nowMs nowIso2).2.status →
      (signup users name email password nowIso nowMs nowIso2).1 = users) ∧
    (∀ r : Request, (handle users r).1 ≠ users →
      (∃ email password remember nowIso nowMs,
        r = Request.login email password remember nowIso nowMs ∧
        (handle users r).2.message = some "Login successful (demo mode)") ∨
      (∃ name email password nowIso nowMs nowIso2,
        r = Request.signup name email password nowIso nowMs nowIso2 ∧
        (handle users r).2.status = 201)) := by
  refine ⟨verify_unchanged users, currentUser_unchanged users, fun _ => rfl, ?_, ?_, ?_⟩
  · intro email password remember nowIso nowMs h
    apply login_unchanged_of_message
    intro hm
    obtain ⟨e, p, _, _, hl⟩ := login_of_demo_message users email password remember nowIso nowMs hm
    rw [hl] at h
    simp at h
  · intro name email password nowIso nowMs nowIso2 h
    apply signup_unchanged_of_status
    omega
  · intro r hr
    cases r with
    | login email password remember nowIso nowMs =>
      left
      refine ⟨email, password, remember, nowIso, nowMs, rfl, ?_⟩
      by_contra hm
      exact hr (login_unchanged_of_message users email password remember nowIso nowMs hm)
    | signup name email password nowIso nowMs nowIso2 =>
      right
      refine ⟨name, email, password, nowIso, nowMs, nowIso2, rfl, ?_⟩
      by_contra hs
      exact hr (signup_unchanged_of_status users name email password nowIso nowMs nowIso2 hs)
    | verify token => exact absurd (verify_unchanged users token) hr
    | logout => exact absurd rfl hr
    | currentUser authorization => exact absurd (currentUser_unchanged users authorization) hr
    | stats nowIso => exact absurd rfl hr

/-- C18 (witness): on the database holding `b@x.com`, a login without
password (400), a signup with a seven-character password (400) and a signup
of the registered `b@x.com` (409) leave the database as it was, and the login
of the unknown `c@x.com`, which changes it, is answered by the auto-provision
branch. -/
theorem database_changes_only_by_provision_or_signup_witness :
    (400 ≤ (login exampleUsers (some (lit "b@x.com")) none none (lit "T") 5).2.status ∧
      (login exampleUsers (some (lit "b@x.com")) none none (lit "T") 5).1 = exampleUsers) ∧
    (400 ≤ (signup exampleUsers (some (lit "Cy")) (some (lit "c@x.com")) (some (lit "1234567"))
        (lit "T") 5 (lit "T")).2.status ∧
      (signup exampleUsers (some (lit "Cy")) (some (lit "c@x.com")) (some (lit "1234567"))
        (lit "T") 5 (lit "T")).1 = exampleUsers) ∧
    (400 ≤ (signup exampleUsers (some (lit "Cy")) (some (lit "b@x.com")) (some (lit "12345678"))
        (lit "T") 5 (lit "T")).2.status ∧
      (signup exampleUsers (some (lit "Cy")) (some (lit "b@x.com")) (some (lit "12345678"))
        (lit "T") 5 (lit "T")).1 = exampleUsers) ∧
    ((handle exampleUsers (Request.login (some (lit "c@x.com")) (some (lit "pw1")) none
        (lit "T") 5)).1 ≠ exampleUsers ∧
      ((∃ email password remember nowIso nowMs,
        Request.login (some (lit "c@x.com")) (some (lit "pw1")) none (lit "T") 5 =
          Request.login email password remember nowIso nowMs ∧
        (handle exampleUsers (Request.login (some (lit "c@x.com")) (some (lit "pw1")) none
          (lit "T") 5)).2.message = some "Login successful (demo mode)") ∨
      (∃ name email password nowIso nowMs nowIso2,
        Request.login (some (lit "c@x.com")) (some (lit "pw1")) none (lit "T") 5 =
          Request.signup name email password nowIso nowMs nowIso2 ∧
        (handle exampleUsers (Request.login (some (lit "c@x.com")) (some (lit "pw1")) none
          (lit "T") 5)).2.status = 201))) :=
  have h := database_changes_only_by_provision_or_signup exampleUsers
  ⟨⟨by decide, h.2.2.2.1 (some (lit "b@x.com")) none none (lit "T") 5 (by decide)⟩,
    ⟨by decide, h.2.2.2.2.1 (some (lit "Cy")) (some (lit "c@x.com")) (some (lit "1234567"))
      (lit "T") 5 (lit "T") (by decide)⟩,
    ⟨by decide, h.2.2.2.2.1 (some (lit "Cy")) (some (lit "b@x.com")) (some (lit "12345678"))
      (lit "T") 5 (lit "T") (by decide)⟩,
    ⟨by decide, h.2.2.2.2.2
      (Request.login (some (lit "c@x.com")) (some (lit "pw1")) none (lit "T") 5) (by decide)⟩⟩

/-! ## Stored accounts on every other path -/

/-- The only request that changes an account already stored is a login for
its email answered by the auto-provision branch: every other request leaves
the account under a registered key as it was. -/
theorem stored_account_changes_only_by_login (users : Users) (r : Request) (k : JSString)
    (acct : Account) (hget : users.get k = some acct)
    (hk : (handle users r).1.get k ≠ some acct) :
    ∃ password remember nowIso nowMs,
      r = Request.login (some k) password remember nowIso nowMs ∧
      (handle users r).2.message = some "Login successful (demo mode)" := by
  cases r with
  | login email password remember nowIso nowMs =>
    by_cases hm : (login users email password remember nowIso nowMs).2.message =
        some "Login successful (demo mode)"
    · obtain ⟨e, p, he, _, hl⟩ :=
        login_of_demo_message users email password remember nowIso nowMs hm
      by_cases hek : k = e
      · subst hek
        subst he
        exact ⟨password, remember, nowIso, nowMs, rfl, hm⟩
      · exfalso
        apply hk
        simp only [handle]
        rw [hl]
        simp only []
        rw [Users.get_set_other _ _ _ k hek]
        exact hget
    · exfalso
      apply hk
      simp only [handle]
      rw [login_unchanged_of_message users email password remember nowIso nowMs hm]
      exact hget
  | signup name email password nowIso nowMs nowIso2 =>
    exfalso
    apply hk
    simp only [handle]
    by_cases hs : (signup users name email password nowIso nowMs nowIso2).2.status = 201
    · obtain ⟨n, e, p, _, _, _, hun, hl⟩ :=
        signup_of_created users name email password nowIso nowMs nowIso2 hs
      have hek : k ≠ e := by
        intro hke
        subst hke
        simp [Users.has, hget] at hun
      rw [hl]
      simp only []
      rw [Users.get_set_other _ _ _ k hek]
      exact hget
    · rw [signup_unchanged_of_status users name email password nowIso nowMs nowIso2 hs]
      exact hget
  | verify token => exact absurd (by rw [handle, verify_unchanged]; exact hget) hk
  | logout => exact absurd hget hk
  | currentUser authorization =>
    exact absurd (by rw [handle, currentUser_unchanged]; exact hget) hk
  | stats nowIso => exact absurd hget hk

end AuthUI
